import Mathlib

/-
Verification of the reservoir/generation physics, bias estimation,
optimization-constraint and deterministic-recalculation core of the
Oxbow_Django_Optimization repository, as a shallow embedding in Lean 4.

Conventions of the embedding:
- Python float arithmetic is idealized as exact arithmetic.  Pure polynomial
  and piecewise computations are embedded over the rationals so that they are
  executable; every computation that goes through a square root (the
  storage-to-elevation inversion in physics.abay_af_to_feet, and hence the
  recalculation loop that carries elevation state) is embedded over the reals.
- A pandas timestamp index is embedded as a rational number per row (the index
  column of the table); hour-ending semantics and timezone conversions do not
  affect any of the verified properties.
- A missing value (NaN) in an optional column is embedded as Option.none.
- The CCS mode column, which arrives as a number, a numeric string or the
  text GEN/SPILL, is embedded as ModeRaw: numeric strings are represented by
  the num constructor (Python parses them with float() before any string
  matching), non-numeric text by the text constructor.
-/

/-! ### Constants (src/abay_opt/constants.py and src/abay_opt/utils.py) -/

def AF_PER_CFS_HOUR : ℚ := 3600 / 43560

def CFS_PER_AF_HOUR : ℚ := 1 / AF_PER_CFS_HOUR

def OXPH_MIN_MW : ℚ := 0.8

def OXPH_MAX_MW : ℚ := 5.8

def OXPH_RAMP_RATE_MW_PER_MIN : ℚ := 0.042

def OXPH_MW_TO_CFS_FACTOR : ℚ := 163.73

def OXPH_MW_TO_CFS_OFFSET : ℚ := 83.0

def MFRA_MW2_TO_CFS_FACTOR : ℚ := 0.00943

def MFRA_MW_TO_CFS_FACTOR : ℚ := 5.6653

def MFRA_MW_TO_CFS_OFFSET : ℚ := 18.54

def OXPH_HEAD_LOSS_SLOPE : ℚ := 0.0912

def OXPH_HEAD_LOSS_INTERCEPT : ℚ := -101.42

def ABAY_MIN_ELEV_FT : ℚ := 1168.0

/-! ### Stage-storage curve (src/abay_opt/physics.py lines 7-25) -/

def A_COEF : ℚ := 0.6311303

def B_COEF : ℚ := -1403.8

def C_COEF : ℚ := 780566.0

/-- physics.abay_feet_to_af, exact rational form (a pure quadratic). -/
def abayFeetToAf (ft : ℚ) : ℚ := A_COEF * ft ^ 2 + B_COEF * ft + C_COEF

/-- physics.abay_feet_to_af over the reals (used where elevation state is
real-valued because it came out of the quadratic inversion). -/
noncomputable def abayFeetToAfR (ft : ℝ) : ℝ :=
  (A_COEF : ℝ) * ft ^ 2 + (B_COEF : ℝ) * ft + (C_COEF : ℝ)

/-- physics.abay_af_to_feet: solve A_COEF*x^2 + B_COEF*x + (C_COEF - af) = 0
for the larger root, flooring the discriminant at zero (np.maximum(disc, 0.0))
exactly as the source does. -/
noncomputable def abayAfToFeetR (af : ℝ) : ℝ :=
  (-(B_COEF : ℝ) +
      Real.sqrt (max ((B_COEF : ℝ) * (B_COEF : ℝ) - 4 * (A_COEF : ℝ) * ((C_COEF : ℝ) - af)) 0))
    / (2 * (A_COEF : ℝ))

lemma abayFeetToAf_cast (q : ℚ) : ((abayFeetToAf q : ℚ) : ℝ) = abayFeetToAfR (q : ℝ) := by
  unfold abayFeetToAf abayFeetToAfR
  push_cast
  ring

/-- Round-trip: on the upper branch of the parabola (which contains the whole
operating range) the inversion recovers the elevation exactly. -/
lemma abay_roundtrip (ft : ℝ) (h : (1130 : ℝ) ≤ ft) :
    abayAfToFeetR (abayFeetToAfR ft) = ft := by
  unfold abayAfToFeetR abayFeetToAfR
  have hA : (A_COEF : ℝ) = 0.6311303 := by norm_num [A_COEF]
  have hB : (B_COEF : ℝ) = -1403.8 := by norm_num [B_COEF]
  have hC : (C_COEF : ℝ) = 780566.0 := by norm_num [C_COEF]
  rw [hA, hB, hC]
  have hdisc : (-1403.8 : ℝ) * -1403.8 -
      4 * 0.6311303 * (780566.0 - (0.6311303 * ft ^ 2 + -1403.8 * ft + 780566.0))
      = (2 * 0.6311303 * ft + -1403.8) ^ 2 := by ring
  rw [hdisc]
  have hpos : (0 : ℝ) ≤ 2 * 0.6311303 * ft + -1403.8 := by nlinarith
  rw [max_eq_left (sq_nonneg _), Real.sqrt_sq hpos]
  ring

/-! ### Mode representation and normalization -/

/-- Raw CCS mode value as it arrives from PI / the forecast builder.  Numeric
strings are represented via num (Python float() parses them before any string
comparison happens in normalize_mode_series). -/
inductive ModeRaw
  | num (q : ℚ)
  | text (s : String)
deriving DecidableEq

inductive Mode
  | GEN
  | SPILL
deriving DecidableEq

namespace Physics

/-- physics.normalize_mode_series (scalar branch, lines 51-63): numeric values
are SPILL iff they are at least 0.5; text is matched case-insensitively
against SPILL/GEN/1/0 and anything else defaults to GEN. -/
def normalizeMode : ModeRaw → Mode
  | .num q => if (0.5 : ℚ) ≤ q then .SPILL else .GEN
  | .text s =>
      let t := s.toUpper
      if t = "SPILL" then .SPILL
      else if t = "GEN" then .GEN
      else if t = "1" then .SPILL
      else if t = "0" then .GEN
      else .GEN

/-- physics.oxph_cfs_from_mw_linear: cfs = 163.73*MW + 83. -/
def oxphCfsFromMwLinear (mw : ℚ) : ℚ :=
  OXPH_MW_TO_CFS_FACTOR * mw + OXPH_MW_TO_CFS_OFFSET

/-- physics.mf12_mw_from_mfra: side-water reduction and GEN/SPILL rule,
result clipped at zero. -/
def mf12MwFromMfra (mfraMw r4 r5l : ℚ) (mode : ModeRaw) : ℚ :=
  let reduction := min 86 (max 0 ((r4 - r5l) / 10))
  let out := if normalizeMode mode = .SPILL then mfraMw * 0.59
             else (mfraMw - reduction) * 0.59
  max out 0

/-- physics.mf12_cfs_from_mw_quadratic: the input MW is clipped at zero
(.clip(lower=0.0)) before the quadratic is applied. -/
def mf12CfsFromMwQuadratic (mw : ℚ) : ℚ :=
  let m := max mw 0
  MFRA_MW2_TO_CFS_FACTOR * m ^ 2 + MFRA_MW_TO_CFS_FACTOR * m + MFRA_MW_TO_CFS_OFFSET

/-- physics.regulated_component_gen. -/
def regulatedComponentGen (mf12Cfs r4 r5l : ℚ) : ℚ :=
  max (min 886 ((mf12Cfs + r4) - r5l)) (max 0 (r4 - r5l))

/-- physics.expected_abay_net_cfs for a single row of the lookback table. -/
def expectedNet (r30 r4 r20 r5l r26 mfraMw oxphMw : ℚ) (mode : ModeRaw) : ℚ :=
  let mf12Mw := mf12MwFromMfra mfraMw r4 r5l mode
  let mf12Cfs := mf12CfsFromMwQuadratic mf12Mw
  let oxphCfs := oxphCfsFromMwLinear oxphMw
  let base := r30 + r4 + (r20 - r5l) - r26
  let regulated := regulatedComponentGen mf12Cfs r4 r5l
  if normalizeMode mode = .SPILL then base + mf12Cfs - oxphCfs
  else base + regulated - oxphCfs

end Physics

/-! ### Bias estimator (src/abay_opt/bias.py) -/

/-- One row of the measured lookback table (columns consumed by
compute_bias_cfs_24h).  Flow and power columns go through to_numeric_series,
which fills NaN with 0, so they are plain rationals; the measured elevation
column may hold NaN, so it stays optional (a missing elevation is converted
to the 0.0 default by to_numeric_series inside abay_feet_to_af, see afVal). -/
structure LRow where
  r30 : ℚ
  r4 : ℚ
  r20 : ℚ
  r5l : ℚ
  r26 : ℚ
  mfraMw : ℚ
  oxphMw : ℚ
  mode : ModeRaw
  elev : Option ℚ
deriving DecidableEq

namespace Bias

/-- expected_abay_net_cfs evaluated on one lookback row. -/
def expRow (r : LRow) : ℚ :=
  Physics.expectedNet r.r30 r.r4 r.r20 r.r5l r.r26 r.mfraMw r.oxphMw r.mode

/-- The scalar path of utils.to_numeric_series: a NaN input is replaced by
the 0.0 default (float(nan) parses, np.isnan fires, the default is
returned); a present numeric value passes through. -/
def toNumericScalar (x : Option ℚ) : ℚ := x.getD 0

/-- elev.apply(abay_feet_to_af): abay_feet_to_af runs its scalar argument
through to_numeric_series, so a missing elevation becomes 0.0 ft and the
result is always a number (780566 AF for a missing elevation), never NaN. -/
def afVal (r : LRow) : ℚ := abayFeetToAf (toNumericScalar r.elev)

/-- af.diff() * CFS_PER_AF_HOUR: entry 0 is NaN (there is no previous row);
every entry i >= 1 is a number, because the af series itself is NaN-free. -/
def actNetList (tbl : List LRow) : List (Option ℚ) :=
  match tbl with
  | [] => []
  | r0 :: rest =>
      none :: List.zipWith (fun a b =>
        some ((afVal b - afVal a) * CFS_PER_AF_HOUR)) (r0 :: rest) rest

/-- pd.concat([exp, act], axis=1).dropna(): the expected series is total and
the actual series is NaN only at the first row, so exactly the first row is
dropped; every later hour-pair survives, missing elevations included. -/
def alignedPairs (tbl : List LRow) : List (ℚ × ℚ) :=
  (List.zip (tbl.map expRow) (actNetList tbl)).filterMap
    (fun p => p.2.map (fun a => (p.1, a)))

/-- Series.clip(lower=-2000.0, upper=2000.0) on one value. -/
def clip2000 (x : ℚ) : ℚ := min 2000 (max (-2000) x)

/-- compute_bias_cfs_24h (bias.py lines 6-20). -/
def computeBiasCfs24h (tbl : List LRow) : ℚ :=
  if tbl = [] then 0
  else
    let pairs := alignedPairs tbl
    if pairs = [] then 0
    else
      let trimmed := pairs.map (fun p => clip2000 (p.2 - p.1))
      let tl := trimmed.drop (trimmed.length - 24)
      tl.sum / (tl.length : ℚ)

/-- Specification-side view of the clipped hourly differences: one value per
consecutive pair of lookback hours, equal to the clipped (actual net minus
expected net) of the later hour, where the actual net is computed from the
stage-storage curve at each elevation (a missing elevation entering as the
0.0 ft default of to_numeric_series). -/
def specHourlyDiffs (tbl : List LRow) : List ℚ :=
  (List.zip tbl tbl.tail).map (fun p =>
    clip2000 ((afVal p.2 - afVal p.1) * CFS_PER_AF_HOUR - expRow p.2))

lemma trimmed_eq_spec_aux (prev : LRow) (rest : List LRow) :
    ((List.zip (rest.map expRow)
        (List.zipWith (fun a b =>
          some ((afVal b - afVal a) * CFS_PER_AF_HOUR)) (prev :: rest) rest)).filterMap
        (fun p => p.2.map (fun a => (p.1, a)))).map
      (fun p => clip2000 (p.2 - p.1))
    = (List.zip (prev :: rest) rest).map (fun p =>
        clip2000 ((afVal p.2 - afVal p.1) * CFS_PER_AF_HOUR - expRow p.2)) := by
  induction rest generalizing prev with
  | nil => simp
  | cons a as ih =>
      simp only [List.map_cons, List.zipWith_cons_cons, List.zip_cons_cons,
        List.filterMap_cons, Option.map_some', List.map_cons]
      exact congrArg₂ _ rfl (ih a)

/-- The clipped-difference list produced by the compute_bias pipeline equals
the specification-side list of clipped hourly differences. -/
lemma trimmed_eq_spec (tbl : List LRow) :
    (alignedPairs tbl).map (fun p => clip2000 (p.2 - p.1)) = specHourlyDiffs tbl := by
  cases tbl with
  | nil => simp [alignedPairs, actNetList, specHourlyDiffs]
  | cons r0 rest =>
      unfold alignedPairs actNetList specHourlyDiffs
      simp only [List.map_cons, List.zip_cons_cons, List.filterMap_cons, Option.map_none']
      exact trimmed_eq_spec_aux r0 rest

end Bias

/-! ### Deterministic recalculator (src/abay_opt/recalc.py) -/

/-- One row of the forecast/result table consumed by recalc_abay_path.
Input flow/power columns go through pd.to_numeric(...).fillna(0.0) and are
rationals; FLOAT_FT keeps NaN (optional); the result columns may be missing or
NaN on input (optional reals) and are written for every recomputed row.
The requested OXPH generation is real-valued because the recomputed value can
come out of the real-valued head cap. -/
structure RRow where
  ts : ℚ
  r26 : ℚ
  r5l : ℚ
  r20 : ℚ
  r4 : ℚ
  r30 : ℚ
  mfraMw : ℚ
  floatFt : Option ℚ
  mode : ModeRaw
  bias : ℚ
  gUser : ℝ
  abayAf : Option ℝ
  abayFt : Option ℝ
  oxphOutflowCfs : Option ℝ
  mf12MwCol : Option ℝ
  mf12CfsCol : Option ℝ
  regulatedCol : Option ℝ
  headLimitCol : Option ℝ
  violatesMin : Bool
  violatesFloat : Bool
  violatesHead : Bool

namespace Recalc

/-- recalc.normalize_mode_series (scalar branch, recalc.py lines 98-110);
a verbatim re-implementation of the physics module function. -/
def normalizeMode : ModeRaw → Mode
  | .num q => if (0.5 : ℚ) ≤ q then .SPILL else .GEN
  | .text s =>
      let t := s.toUpper
      if t = "SPILL" then .SPILL
      else if t = "GEN" then .GEN
      else if t = "1" then .SPILL
      else if t = "0" then .GEN
      else .GEN

/-- recalc.mf12_mw_from_mfra (recalc.py lines 112-124). -/
def mf12MwFromMfra (mfraMw r4 r5l : ℚ) (mode : ModeRaw) : ℚ :=
  let side := min 86 (max 0 ((r4 - r5l) / 10))
  let out := if normalizeMode mode = .SPILL then mfraMw * 0.59
             else (mfraMw - side) * 0.59
  max out 0

/-- recalc.mf12_cfs_from_mw_quadratic (recalc.py lines 126-131).  Unlike the
physics module version, the input is not clipped at zero here. -/
def mf12CfsFromMwQuadratic (mw : ℚ) : ℚ :=
  MFRA_MW2_TO_CFS_FACTOR * mw ^ 2 + MFRA_MW_TO_CFS_FACTOR * mw + MFRA_MW_TO_CFS_OFFSET

/-- recalc.regulated_component_gen (recalc.py lines 133-139). -/
def regulatedComponentGen (mf12Cfs r4 r5l : ℚ) : ℚ :=
  max (min 886 ((mf12Cfs + r4) - r5l)) (max 0 (r4 - r5l))

/-- recalc.oxph_cfs_from_mw_linear (recalc.py lines 141-145). -/
def oxphCfsFromMwLinear (mw : ℚ) : ℚ :=
  OXPH_MW_TO_CFS_FACTOR * mw + OXPH_MW_TO_CFS_OFFSET

/-- The per-hour known inflow term of the recalc loop (recalc.py lines
303-313): base inflow plus bias, plus the mode-selected MF_1_2 or regulated
component, minus the OXPH offset. -/
def knownCfs (r30 r4 r20 r5l r26 bias mfraMw : ℚ) (mode : ModeRaw) : ℚ :=
  let base := r30 + r4 + (r20 - r5l) - r26 + bias
  let mfMw := mf12MwFromMfra mfraMw r4 r5l mode
  let mfCfs := mf12CfsFromMwQuadratic mfMw
  if normalizeMode mode = .SPILL then base + mfCfs - OXPH_MW_TO_CFS_OFFSET
  else base + regulatedComponentGen mfCfs r4 r5l - OXPH_MW_TO_CFS_OFFSET

end Recalc

/-- recalc._head_limited_cap_mw (recalc.py lines 147-168):
cap = (a*H_prev + a*k*known + b) / (1 + a*k*f). -/
noncomputable def headLimitedCapMw (hPrev known : ℝ) : ℝ :=
  ((OXPH_HEAD_LOSS_SLOPE : ℝ) * hPrev
      + (OXPH_HEAD_LOSS_SLOPE : ℝ) * (AF_PER_CFS_HOUR : ℝ) * known
      + (OXPH_HEAD_LOSS_INTERCEPT : ℝ))
    / (1 + (OXPH_HEAD_LOSS_SLOPE : ℝ) * (AF_PER_CFS_HOUR : ℝ) * (OXPH_MW_TO_CFS_FACTOR : ℝ))

/-- The generation clamp of the recalc loop (recalc.py lines 315-328): head
cap first (with a 1e-9 tolerance, recording a head violation), then the hard
[OXPH_MIN_MW, OXPH_MAX_MW] envelope.  Returns the clamped generation and the
violates_head flag. -/
noncomputable def clampGen (clampToHead clampToMinmax : Bool) (hPrev known g0 : ℝ) : ℝ × Bool :=
  let cap := headLimitedCapMw hPrev known
  let p1 : ℝ × Bool :=
    if clampToHead = true ∧ cap + 1e-9 < g0 then (cap, true) else (g0, false)
  if clampToMinmax then (max (OXPH_MIN_MW : ℝ) (min (OXPH_MAX_MW : ℝ) p1.1), p1.2) else p1

/-- The loop body of recalc_abay_path for one hour (recalc.py lines 299-354).
Takes the previous-hour storage and elevation, returns the rewritten row and
the carried (storage, elevation) state. -/
noncomputable def hourStep (clampToHead clampToMinmax : Bool) (afPrev hPrev : ℝ)
    (row : RRow) : RRow × ℝ × ℝ :=
  let mfMw : ℚ := Recalc.mf12MwFromMfra row.mfraMw row.r4 row.r5l row.mode
  let mfCfs : ℚ := Recalc.mf12CfsFromMwQuadratic mfMw
  let known : ℚ :=
    Recalc.knownCfs row.r30 row.r4 row.r20 row.r5l row.r26 row.bias row.mfraMw row.mode
  let isSpill : Bool := Recalc.normalizeMode row.mode = Mode.SPILL
  let regOpt : Option ℚ :=
    if isSpill then none else some (Recalc.regulatedComponentGen mfCfs row.r4 row.r5l)
  let gv := clampGen clampToHead clampToMinmax hPrev (known : ℝ) row.gUser
  let g : ℝ := gv.1
  let afRaw : ℝ := afPrev + (AF_PER_CFS_HOUR : ℝ) * ((known : ℝ) - (OXPH_MW_TO_CFS_FACTOR : ℝ) * g)
  let hRaw : ℝ := abayAfToFeetR afRaw
  let hT : ℝ := match row.floatFt with
    | some fl => if (fl : ℝ) < hRaw then (fl : ℝ) else hRaw
    | none => hRaw
  let afT : ℝ := match row.floatFt with
    | some fl => if (fl : ℝ) < hRaw then abayFeetToAfR (fl : ℝ) else afRaw
    | none => afRaw
  let vFloat : Bool := match row.floatFt with
    | some fl => if (fl : ℝ) < hT then true else false
    | none => false
  let vMin : Bool := if hT < (ABAY_MIN_ELEV_FT : ℝ) then true else false
  ({ row with
      gUser := g
      abayAf := some afT
      abayFt := some hT
      oxphOutflowCfs := some ((OXPH_MW_TO_CFS_FACTOR : ℝ) * g + (OXPH_MW_TO_CFS_OFFSET : ℝ))
      mf12MwCol := some (mfMw : ℝ)
      mf12CfsCol := some (mfCfs : ℝ)
      regulatedCol := regOpt.map (fun q => (q : ℝ))
      headLimitCol := some ((OXPH_HEAD_LOSS_SLOPE : ℝ) * hT + (OXPH_HEAD_LOSS_INTERCEPT : ℝ))
      violatesMin := vMin
      violatesFloat := vFloat
      violatesHead := gv.2 },
    afT, hT)

/-- Columns an override may target (recalc.py docstring lines 189-191). -/
inductive OverrideCol
  | mfraMw
  | oxphGenMw
  | r4Flow
  | r30Flow
deriving DecidableEq

def OverrideCol.applyTo (c : OverrideCol) (v : ℚ) (r : RRow) : RRow :=
  match c with
  | .mfraMw => { r with mfraMw := v }
  | .oxphGenMw => { r with gUser := (v : ℝ) }
  | .r4Flow => { r with r4 := v }
  | .r30Flow => { r with r30 := v }

/-- Override application (recalc.py lines 215-225): each (column, timestamp,
value) edit is applied only when the timestamp is present in the index;
otherwise it is skipped. -/
def applyOverrides (rows : List RRow) (ov : List (OverrideCol × ℚ × ℚ)) : List RRow :=
  ov.foldl (fun acc e =>
    acc.map (fun r => if r.ts = e.2.1 then e.1.applyTo e.2.2 r else r)) rows

/-- min(all_ts) over the override set (recalc.py lines 229-233); the fallback
is used only when the override set is empty. -/
def minOverrideTs (ov : List (OverrideCol × ℚ × ℚ)) (fallback : ℚ) : ℚ :=
  match ov.map (fun e => e.2.1) with
  | [] => fallback
  | t :: ts => ts.foldl min t

/-- Find the starting row position (recalc.py lines 240-247): the first index
whose timestamp is at or after edit_from (for a sorted index this is both
get_loc on an exact hit and searchsorted otherwise); none when edit_from is
after the last row. -/
def snapIndex (rows : List RRow) (editFrom : ℚ) : Option ℕ :=
  let i := rows.findIdx (fun r => decide (editFrom ≤ r.ts))
  if i < rows.length then some i else none

/-- Seed storage/elevation for the hour before the edit point (recalc.py lines
249-264). -/
noncomputable def seedState (rows : List RRow) (startIdx : ℕ) (initialFt : Option ℚ) :
    Option (ℝ × ℝ) :=
  if startIdx = 0 then
    initialFt.map (fun i => (((abayFeetToAf i : ℚ) : ℝ), (i : ℝ)))
  else
    match rows.get? (startIdx - 1) with
    | none => none
    | some prev =>
        match prev.abayAf with
        | some af =>
            some (af, match prev.abayFt with
              | some ft => ft
              | none => abayAfToFeetR af)
        | none => initialFt.map (fun i => (((abayFeetToAf i : ℚ) : ℝ), (i : ℝ)))

/-- The forward integration (recalc.py lines 299-354) over the suffix of rows
from the edit point on. -/
noncomputable def recalcGo (clampToHead clampToMinmax : Bool) :
    ℝ → ℝ → List RRow → List RRow
  | _, _, [] => []
  | afPrev, hPrev, r :: rest =>
      let st := hourStep clampToHead clampToMinmax afPrev hPrev r
      st.1 :: recalcGo clampToHead clampToMinmax st.2.1 st.2.2 rest

/-- Rows before the edit point are returned untouched; rows from the edit
point on are replaced by the recomputed rows (the write-back of recalc.py
lines 356-368). -/
noncomputable def recalcRows (rows : List RRow) (start : ℕ) (af0 h0 : ℝ)
    (clampToHead clampToMinmax : Bool) : List RRow :=
  rows.take start ++ recalcGo clampToHead clampToMinmax af0 h0 (rows.drop start)

/-- recalc_abay_path (recalc.py lines 172-370).  The two ValueError raises of
the source are modelled as the error branch of Except; the edit_from fallback
for an empty table (df.index[0], an IndexError in the source) is modelled by a
dummy value, unreachable under the hypotheses of every theorem below. -/
noncomputable def recalcAbayPath (rows : List RRow) (ov : List (OverrideCol × ℚ × ℚ))
    (initialFt : Option ℚ) (editFrom : Option ℚ)
    (clampToHead clampToMinmax : Bool) : Except String (List RRow) :=
  let rows1 := applyOverrides rows ov
  let ef : ℚ := match editFrom with
    | some t => t
    | none =>
        match ov with
        | [] => ((rows1.head?.map RRow.ts).getD 0)
        | _ => minOverrideTs ov ((rows1.head?.map RRow.ts).getD 0)
  match snapIndex rows1 ef with
  | none => .error "edit_from is after the last forecast hour."
  | some start =>
      match seedState rows1 start initialFt with
      | none => .error "initial_abay_ft is required to seed recalculation."
      | some st => .ok (recalcRows rows1 start st.1 st.2 clampToHead clampToMinmax)

/-! ### Scheduling optimizer (src/abay_opt/optimizer.py) -/

/-- One row of the forecast table consumed by build_and_solve, with the
per-hour rafting-window flag folded in (the source passes it as a parallel
list). -/
structure ORow where
  r4 : ℚ
  r30 : ℚ
  r20 : ℚ
  r5l : ℚ
  r26 : ℚ
  mfraMw : ℚ
  bias : ℚ
  floatFt : ℚ
  mode : ModeRaw
  window : Bool

/-- OptimizeConfig (optimizer.py lines 16-37), restricted to the fields that
enter the constraint system. -/
structure OptCfg where
  minElevFt : ℚ
  floatBufferFt : ℚ
  oxphMinMw : ℚ
  oxphMaxMw : ℚ
  rampMwPerHour : ℚ
  summerSetpointFloorMw : ℚ

namespace Optim

/-- The mode test used for the water-balance branch (optimizer.py lines 72 and
144): the raw value is stringified and uppercased and compared against the
literal SPILL.  A numeric mode never equals that string. -/
def isSpillStr : ModeRaw → Bool
  | .num _ => false
  | .text s => s.toUpper == "SPILL"

/-- The known inflow term fed into the water balance (optimizer.py lines
65-78 and 140-144).  The stringified-uppercased mode series is passed into
physics.mf12_mw_from_mfra, whose internal normalization is case-insensitive
and re-parses numeric strings, so on this mode representation that
preprocessing is the identity for the MF_1_2 computation; the branch
selection, by contrast, uses the raw string comparison above. -/
def knownCfs (r30 r4 r20 r5l r26 bias mfraMw : ℚ) (mode : ModeRaw) : ℚ :=
  let mf12Mw := Physics.mf12MwFromMfra mfraMw r4 r5l mode
  let mf12Cfs := Physics.mf12CfsFromMwQuadratic mf12Mw
  let base := r30 + r4 + (r20 - r5l) - r26 + bias
  if isSpillStr mode then base + mf12Cfs - OXPH_MW_TO_CFS_OFFSET
  else base + Physics.regulatedComponentGen mf12Cfs r4 r5l - OXPH_MW_TO_CFS_OFFSET

def knownOf (r : ORow) : ℚ :=
  knownCfs r.r30 r.r4 r.r20 r.r5l r.r26 r.bias r.mfraMw r.mode

/-- np.linspace over [hmin, hmax] with 14 points (optimizer.py lines 39-46),
including the hmax <= hmin adjustment. -/
def breakH (hmin hmax : ℚ) (i : ℕ) : ℚ :=
  let hmax2 := if hmax ≤ hmin then hmin + 1 else hmax
  hmin + (hmax2 - hmin) * i / 13

def breakA (hmin hmax : ℚ) (i : ℕ) : ℚ := abayFeetToAf (breakH hmin hmax i)

/-- A candidate assignment to the decision variables of the MILP built by
build_and_solve.  The binary segment selectors are rationals constrained to
be 0 or 1. -/
structure OptSol where
  g : ℕ → ℚ
  s : ℕ → ℚ
  H : ℕ → ℚ
  A : ℕ → ℚ
  lam : ℕ → ℕ → ℚ
  seg : ℕ → ℕ → ℚ
  slackHi : ℕ → ℚ
  slackLo : ℕ → ℚ
  dpos : ℕ → ℚ
  dneg : ℕ → ℚ
  shortfall : ℕ → ℚ
  floorSlack : ℕ → ℚ

def dummyORow : ORow :=
  { r4 := 0, r30 := 0, r20 := 0, r5l := 0, r26 := 0, mfraMw := 0, bias := 0,
    floatFt := 0, mode := .num 0, window := false }

/-- The complete constraint system of the MILP built by build_and_solve
(optimizer.py lines 93-176): variable bounds, the piecewise-linear storage
surface with adjacent-segment selectors, elevation bounds with slacks, the
head-loss limit, the water balance, ramping, the rafting-window linkage, and
the smoothing linkage.  A solution reported optimal or feasible by the solver
satisfies exactly these constraints. -/
def OptimFeasible (rows : List ORow) (cfg : OptCfg) (initElevFt initGenMw : ℚ)
    (sol : OptSol) : Prop :=
  let T := rows.length
  let hmin := min cfg.minElevFt initElevFt
  let hmax := (rows.map (fun r => r.floatFt - cfg.floatBufferFt)).foldl max initElevFt
  let Hp := breakH hmin hmax
  let Ap := breakA hmin hmax
  let A0 := abayFeetToAf initElevFt
  (∀ t, t < T → cfg.oxphMinMw ≤ sol.g t ∧ sol.g t ≤ cfg.oxphMaxMw) ∧
  (∀ t, t < T → 0 ≤ sol.s t ∧ sol.s t ≤ 10) ∧
  (∀ t, t < T → 0 ≤ sol.H t ∧ sol.H t ≤ 2000) ∧
  (∀ t, t < T → 0 ≤ sol.A t ∧ sol.A t ≤ 10000000) ∧
  (∀ t, t < T → ∀ i, i < 14 → 0 ≤ sol.lam t i ∧ sol.lam t i ≤ 1) ∧
  (∀ t, t < T → ∀ k, k < 13 → sol.seg t k = 0 ∨ sol.seg t k = 1) ∧
  (∀ t, t < T → 0 ≤ sol.slackHi t ∧ sol.slackHi t ≤ 10) ∧
  (∀ t, t < T → 0 ≤ sol.slackLo t ∧ sol.slackLo t ≤ 10) ∧
  (∀ t, t < T → 0 ≤ sol.dpos t ∧ sol.dpos t ≤ cfg.oxphMaxMw) ∧
  (∀ t, t < T → 0 ≤ sol.dneg t ∧ sol.dneg t ≤ cfg.oxphMaxMw) ∧
  (∀ t, t < T → 0 ≤ sol.shortfall t ∧ sol.shortfall t ≤ cfg.oxphMaxMw) ∧
  (∀ t, t < T → 0 ≤ sol.floorSlack t ∧ sol.floorSlack t ≤ 10) ∧
  (∀ t, t < T → (Finset.range 14).sum (fun i => sol.lam t i) = 1) ∧
  (∀ t, t < T → (Finset.range 13).sum (fun k => sol.seg t k) = 1) ∧
  (∀ t, t < T → sol.lam t 0 ≤ sol.seg t 0) ∧
  (∀ t, t < T → sol.lam t 13 ≤ sol.seg t 12) ∧
  (∀ t, t < T → ∀ i, 1 ≤ i → i ≤ 12 → sol.lam t i ≤ sol.seg t (i - 1) + sol.seg t i) ∧
  (∀ t, t < T → sol.H t = (Finset.range 14).sum (fun i => sol.lam t i * Hp i)) ∧
  (∀ t, t < T → sol.A t = (Finset.range 14).sum (fun i => sol.lam t i * Ap i)) ∧
  (∀ t, t < T → sol.H t ≤ (rows.getD t dummyORow).floatFt - cfg.floatBufferFt + sol.slackHi t) ∧
  (∀ t, t < T → cfg.minElevFt - sol.slackLo t ≤ sol.H t) ∧
  (∀ t, t < T →
    sol.g t ≤ OXPH_HEAD_LOSS_SLOPE * sol.H t + OXPH_HEAD_LOSS_INTERCEPT) ∧
  (∀ t, t < T →
    sol.A t = (if t = 0 then A0 else sol.A (t - 1))
      + AF_PER_CFS_HOUR * (knownOf (rows.getD t dummyORow) - OXPH_MW_TO_CFS_FACTOR * sol.g t)) ∧
  (0 < T → sol.g 0 - initGenMw ≤ cfg.rampMwPerHour ∧ initGenMw - sol.g 0 ≤ cfg.rampMwPerHour) ∧
  (∀ t, 1 ≤ t → t < T →
    sol.g t - sol.g (t - 1) ≤ cfg.rampMwPerHour ∧
    sol.g (t - 1) - sol.g t ≤ cfg.rampMwPerHour) ∧
  (∀ t, t < T →
    if (rows.getD t dummyORow).window then
      cfg.summerSetpointFloorMw ≤ sol.s t ∧
      sol.g t ≤ sol.s t ∧
      cfg.summerSetpointFloorMw - sol.floorSlack t ≤ sol.g t ∧
      sol.s t - sol.g t ≤ sol.shortfall t
    else
      sol.s t = sol.g t ∧ 0 ≤ sol.shortfall t) ∧
  (∀ t, t < T →
    sol.s t - (if t = 0 then initGenMw else sol.s (t - 1)) = sol.dpos t - sol.dneg t)

end Optim

/-! ### Setpoint-change post-processing (src/abay_opt/cli.py lines 19-79) -/

/-- Python float division: raises ZeroDivisionError on a zero divisor (also
for 0.0/0.0), modelled as none. -/
def pyDiv (x y : ℚ) : Option ℚ := if y = 0 then none else some (x / y)

/-- First pass of compute_setpoint_change_annotations (cli.py lines 44-55):
hour-average generation under the hold-then-ramp-as-late-as-possible policy.
t_need = abs(delta)/r clamped at 60; avg = g_prev + (t_need/120)*delta. -/
def gAvgLoop (r : ℚ) : ℚ → List ℚ → Option (List ℚ)
  | _, [] => some []
  | gPrev, gEndT :: rest => do
      let tneed0 ← pyDiv |gEndT - gPrev| r
      let tneed := min tneed0 60
      let tailv ← gAvgLoop r gEndT rest
      pure ((gPrev + tneed / 120 * (gEndT - gPrev)) :: tailv)

/-- The forward scan inside the second pass (cli.py lines 65-74): accumulate
ramp minutes over future hours until the latest start time falls inside the
window (hePrev, heH]; returns the latest start time (in hours) and the target
setpoint of the hour that triggered the break. -/
def scanForStart (r hePrev heH : ℚ) : ℚ → ℚ → List (ℚ × ℚ × ℚ) → Option (Option (ℚ × ℚ))
  | _, _, [] => some none
  | gLeft, cum, (heT, gRight, sT) :: rest => do
      let step ← pyDiv |gRight - gLeft| r
      let cum2 := cum + step
      let latest := heT - cum2 / 60
      if hePrev < latest ∧ latest ≤ heH then pure (some (latest, sT))
      else scanForStart r hePrev heH gRight cum2 rest

/-- Second pass over the hours (cli.py lines 59-74), carrying the
end-of-prior-hour generation.  Each output entry is the recorded latest-start
time (none when the scan never breaks, the empty change-time string) and the
setpoint override max(s_target[h], s_target[t]). -/
def annotLoop (r : ℚ) : ℚ → List (ℚ × ℚ × ℚ) → Option (List (Option ℚ × ℚ))
  | _, [] => some []
  | gPrevB, (heH, gH, sH) :: rest => do
      let res ← scanForStart r (heH - 1) heH gPrevB 0 ((heH, gH, sH) :: rest)
      let tailv ← annotLoop r gH rest
      let entry : Option ℚ × ℚ := match res with
        | some (latest, sT) => (some latest, max sH sT)
        | none => (none, sH)
      pure (entry :: tailv)

/-- compute_setpoint_change_annotations (cli.py lines 19-79), with timestamps
as rational hours (the Pacific-time string formatting of the recorded minute
does not affect any verified property).  Returns none exactly when a division
by the ramp rate faults. -/
def setpointChangeSchedule (r initGenMw : ℚ) (he gEnd sTarget : List ℚ) :
    Option (List ℚ × List (Option ℚ × ℚ)) := do
  let gavg ← gAvgLoop r initGenMw gEnd
  let annots ← annotLoop r initGenMw
    ((he.zip (gEnd.zip sTarget)).map (fun p => (p.1, p.2.1, p.2.2)))
  pure (gavg, annots)

/-! ### Claim C3: elevation/storage round trip -/

/-- C3: for every elevation in the operating range (at or above the physical
minimum 1168 ft), converting to storage and back recovers the elevation to
within 1e-6 ft (here: exactly); and whenever the discriminant of the
inversion is negative, the inverse floors it at zero and returns the vertex
abscissa -B/(2A) instead of failing. -/
theorem abay_af_feet_roundtrip :
    (∀ ft : ℝ, (ABAY_MIN_ELEV_FT : ℝ) ≤ ft →
      |abayAfToFeetR (abayFeetToAfR ft) - ft| ≤ 1e-6) ∧
    (∀ af : ℝ, (B_COEF : ℝ) * (B_COEF : ℝ) - 4 * (A_COEF : ℝ) * ((C_COEF : ℝ) - af) < 0 →
      abayAfToFeetR af = -(B_COEF : ℝ) / (2 * (A_COEF : ℝ))) := by
  constructor
  · intro ft h
    have h1130 : (1130 : ℝ) ≤ ft := by
      have : (1130 : ℝ) ≤ (ABAY_MIN_ELEV_FT : ℝ) := by norm_num [ABAY_MIN_ELEV_FT]
      linarith
    rw [abay_roundtrip ft h1130, sub_self, abs_zero]
    norm_num
  · intro af h
    unfold abayAfToFeetR
    rw [max_eq_right (le_of_lt h), Real.sqrt_zero, add_zero]

/-- Witness for C3 at the concrete elevation 1170 ft and the concrete
(physically impossible) storage -1000 AF, whose discriminant is negative. -/
theorem abay_af_feet_roundtrip_witness :
    |abayAfToFeetR (abayFeetToAfR 1170) - 1170| ≤ 1e-6 ∧
    abayAfToFeetR (-1000) = -(B_COEF : ℝ) / (2 * (A_COEF : ℝ)) :=
  ⟨abay_af_feet_roundtrip.1 1170 (by norm_num [ABAY_MIN_ELEV_FT]),
   abay_af_feet_roundtrip.2 (-1000) (by norm_num [A_COEF, B_COEF, C_COEF])⟩

/-! ### Claim C1: head-cap ordering in the recalculator -/

/-- C1 (amended): with both clamps enabled, whenever the requested generation
is at least OXPH_MIN_MW and the head-limited cap is more than the 1e-9
comparison tolerance below OXPH_MIN_MW, the head cap is applied first and the
hard envelope second, so the output generation is exactly OXPH_MIN_MW and the
head violation flag is set. -/
theorem recalc_head_cap_order_min_clamp (hPrev known g0 : ℝ)
    (hg : (OXPH_MIN_MW : ℝ) ≤ g0)
    (hcap : headLimitedCapMw hPrev known < (OXPH_MIN_MW : ℝ) - 1e-9) :
    clampGen true true hPrev known g0 = ((OXPH_MIN_MW : ℝ), true) := by
  have hmin : (OXPH_MIN_MW : ℝ) = 0.8 := by norm_num [OXPH_MIN_MW]
  have hmax : (OXPH_MAX_MW : ℝ) = 5.8 := by norm_num [OXPH_MAX_MW]
  have h1 : headLimitedCapMw hPrev known + 1e-9 < g0 := by
    rw [hmin] at hcap hg; linarith
  have h2 : min (OXPH_MAX_MW : ℝ) (headLimitedCapMw hPrev known)
      = headLimitedCapMw hPrev known := by
    apply min_eq_right
    rw [hmax]; rw [hmin] at hcap; linarith
  have h3 : max (OXPH_MIN_MW : ℝ) (headLimitedCapMw hPrev known) = (OXPH_MIN_MW : ℝ) := by
    apply max_eq_left
    rw [hmin] at hcap ⊢; linarith
  simp only [clampGen]
  split_ifs with hbool hcond
  · dsimp only
    rw [h2, h3]
  · exact absurd (And.intro trivial h1) hcond
  all_goals exact absurd trivial hbool

/-- Witness for C1: at H_prev = 1000 ft (and zero known inflow) the head cap
is negative, so a request of 2 MW is cut to the cap and then raised back to
the 0.8 MW hard minimum, with the head flag set. -/
theorem recalc_head_cap_order_min_clamp_witness :
    (OXPH_MIN_MW : ℝ) ≤ 2 ∧
    headLimitedCapMw 1000 0 < (OXPH_MIN_MW : ℝ) - 1e-9 ∧
    clampGen true true 1000 0 2 = ((OXPH_MIN_MW : ℝ), true) := by
  have hcap : headLimitedCapMw 1000 0 < (OXPH_MIN_MW : ℝ) - 1e-9 := by
    unfold headLimitedCapMw
    have h1 : ((OXPH_HEAD_LOSS_SLOPE : ℚ) : ℝ) = 0.0912 := by norm_num [OXPH_HEAD_LOSS_SLOPE]
    have h2 : ((OXPH_HEAD_LOSS_INTERCEPT : ℚ) : ℝ) = -101.42 := by
      norm_num [OXPH_HEAD_LOSS_INTERCEPT]
    have h3 : ((OXPH_MW_TO_CFS_FACTOR : ℚ) : ℝ) = 163.73 := by
      norm_num [OXPH_MW_TO_CFS_FACTOR]
    have h4 : ((AF_PER_CFS_HOUR : ℚ) : ℝ) = 3600 / 43560 := by norm_num [AF_PER_CFS_HOUR]
    rw [h1, h2, h3, h4]
    have hmin : (OXPH_MIN_MW : ℝ) = 0.8 := by norm_num [OXPH_MIN_MW]
    rw [hmin]
    rw [div_lt_iff₀ (by norm_num)]
    norm_num
  exact ⟨by norm_num [OXPH_MIN_MW],
    hcap,
    recalc_head_cap_order_min_clamp 1000 0 2 (by norm_num [OXPH_MIN_MW]) hcap⟩

/-- The previous-hour elevation that puts the head cap exactly 1e-10 below
the hard minimum (with zero known inflow). -/
noncomputable def c1EdgeHPrev : ℝ :=
  (((0.8 : ℝ) - 1e-10)
      * (1 + (OXPH_HEAD_LOSS_SLOPE : ℝ) * (AF_PER_CFS_HOUR : ℝ) * (OXPH_MW_TO_CFS_FACTOR : ℝ))
    - (OXPH_HEAD_LOSS_INTERCEPT : ℝ)) / (OXPH_HEAD_LOSS_SLOPE : ℝ)

lemma c1_cap_eval : headLimitedCapMw c1EdgeHPrev 0 = (0.8 : ℝ) - 1e-10 := by
  unfold headLimitedCapMw c1EdgeHPrev
  have ha : ((OXPH_HEAD_LOSS_SLOPE : ℚ) : ℝ) = 0.0912 := by norm_num [OXPH_HEAD_LOSS_SLOPE]
  have hd : (0 : ℝ) <
      1 + (OXPH_HEAD_LOSS_SLOPE : ℝ) * (AF_PER_CFS_HOUR : ℝ) * (OXPH_MW_TO_CFS_FACTOR : ℝ) := by
    norm_num [OXPH_HEAD_LOSS_SLOPE, AF_PER_CFS_HOUR, OXPH_MW_TO_CFS_FACTOR]
  rw [ha] at hd ⊢
  field_simp

/-- C1 counterexample: with the head cap 1e-10 below OXPH_MIN_MW (so below
the minimum, as the claim requires) and the requested generation exactly
OXPH_MIN_MW, the head clamp does not fire because of the 1e-9 tolerance:
the output generation is still OXPH_MIN_MW but violates_head stays false,
contradicting the claim as stated. -/
theorem recalc_head_cap_tolerance_edge :
    headLimitedCapMw c1EdgeHPrev 0 < (OXPH_MIN_MW : ℝ) ∧
    (OXPH_MIN_MW : ℝ) ≤ (0.8 : ℝ) ∧
    clampGen true true c1EdgeHPrev 0 0.8 = ((0.8 : ℝ), false) := by
  have hc := c1_cap_eval
  refine ⟨by rw [hc]; norm_num [OXPH_MIN_MW], by norm_num [OXPH_MIN_MW], ?_⟩
  have h1 : ¬ (headLimitedCapMw c1EdgeHPrev 0 + 1e-9 < (0.8 : ℝ)) := by
    rw [hc]; intro h; linarith
  have h2 : min (OXPH_MAX_MW : ℝ) (0.8 : ℝ) = (0.8 : ℝ) := by
    apply min_eq_right; norm_num [OXPH_MAX_MW]
  have h3 : max (OXPH_MIN_MW : ℝ) (0.8 : ℝ) = (0.8 : ℝ) := by
    apply max_eq_left; norm_num [OXPH_MIN_MW]
  simp only [clampGen]
  split_ifs with hbool hcond
  · exact absurd hcond.2 h1
  · dsimp only
    rw [h2, h3]
  all_goals exact absurd trivial hbool

/-! ### Claim C9: zero ramp rate in the setpoint-change post-processing -/

lemma pyDiv_some (x r : ℚ) (hr : r ≠ 0) : pyDiv x r = some (x / r) := by
  simp [pyDiv, hr]

lemma gAvgLoop_isSome (r : ℚ) (hr : r ≠ 0) (gp : ℚ) (l : List ℚ) :
    (gAvgLoop r gp l).isSome = true := by
  induction l generalizing gp with
  | nil => simp [gAvgLoop]
  | cons a as ih =>
      obtain ⟨tl, htl⟩ := Option.isSome_iff_exists.mp (ih a)
      simp [gAvgLoop, pyDiv_some _ _ hr, htl]

lemma scanForStart_isSome (r hePrev heH : ℚ) (hr : r ≠ 0) (gl cum : ℚ)
    (l : List (ℚ × ℚ × ℚ)) :
    (scanForStart r hePrev heH gl cum l).isSome = true := by
  induction l generalizing gl cum with
  | nil => simp [scanForStart]
  | cons e rest ih =>
      obtain ⟨he, gr, st⟩ := e
      simp only [scanForStart, pyDiv_some _ _ hr, Option.bind_eq_bind, Option.some_bind]
      split
      · simp
      · exact ih _ _

lemma annotLoop_isSome (r : ℚ) (hr : r ≠ 0) (gp : ℚ) (l : List (ℚ × ℚ × ℚ)) :
    (annotLoop r gp l).isSome = true := by
  induction l generalizing gp with
  | nil => simp [annotLoop]
  | cons e rest ih =>
      obtain ⟨he, gr, st⟩ := e
      obtain ⟨sc, hsc⟩ :=
        Option.isSome_iff_exists.mp (scanForStart_isSome r (he - 1) he hr gp 0 ((he, gr, st) :: rest))
      obtain ⟨tl, htl⟩ := Option.isSome_iff_exists.mp (ih gr)
      simp [annotLoop, hsc, htl]

/-- C9 (amended): for every nonzero ramp rate the setpoint-change
post-processing completes without a division fault, for any generation
trajectory, target setpoints and initial generation.  (The zero-ramp-rate
case faults; see the counterexample.) -/
theorem setpoint_schedule_nonzero_ramp_total (r : ℚ) (hr : r ≠ 0)
    (initGenMw : ℚ) (he gEnd sTarget : List ℚ) :
    (setpointChangeSchedule r initGenMw he gEnd sTarget).isSome = true := by
  obtain ⟨gv, hgv⟩ := Option.isSome_iff_exists.mp (gAvgLoop_isSome r hr initGenMw gEnd)
  obtain ⟨av, hav⟩ := Option.isSome_iff_exists.mp (annotLoop_isSome r hr initGenMw
    (he.zip (gEnd.zip sTarget)))
  simp [setpointChangeSchedule, hgv, hav]

/-- Witness for C9 at the ramp rate actually used by the system
(0.042 MW/min) and a one-hour trajectory. -/
theorem setpoint_schedule_nonzero_ramp_total_witness :
    ((0.042 : ℚ) ≠ 0) ∧
    (setpointChangeSchedule 0.042 0 [1] [2] [3]).isSome = true :=
  ⟨by norm_num, setpoint_schedule_nonzero_ramp_total 0.042 (by norm_num) 0 [1] [2] [3]⟩

/-- C9 counterexample: with a zero ramp rate and a (nonempty) one-hour
trajectory, the computation faults with a division by zero (t_need =
abs(delta)/r) instead of treating the ramp time as immediate. -/
theorem setpoint_schedule_zero_ramp_faults :
    setpointChangeSchedule 0 0 [1] [1] [1] = none := by decide

/-! ### Claim C4 and C10: the bias estimator -/

/-- C4: compute_bias_cfs_24h returns 0 on an empty lookback, returns 0 when
no valid expected/actual hour-pairs survive alignment (which happens exactly
for tables of fewer than two rows: the actual-net series is NaN only at the
first row, a missing elevation having been converted to the 0.0 ft default by
to_numeric_series rather than propagating), and otherwise returns the mean of
the most recent 24 (or fewer) clipped hourly differences (actual net minus
expected net, clipped to [-2000, 2000] before averaging). -/
theorem compute_bias_structure :
    Bias.computeBiasCfs24h [] = 0 ∧
    (∀ tbl, Bias.specHourlyDiffs tbl = [] → Bias.computeBiasCfs24h tbl = 0) ∧
    (∀ tbl, Bias.specHourlyDiffs tbl ≠ [] →
      Bias.computeBiasCfs24h tbl =
        ((Bias.specHourlyDiffs tbl).drop ((Bias.specHourlyDiffs tbl).length - 24)).sum /
          (((Bias.specHourlyDiffs tbl).drop ((Bias.specHourlyDiffs tbl).length - 24)).length : ℚ)) := by
  refine ⟨by simp [Bias.computeBiasCfs24h], ?_, ?_⟩
  · intro tbl hspec
    have htr := Bias.trimmed_eq_spec tbl
    rw [hspec] at htr
    have hpairs : Bias.alignedPairs tbl = [] := List.map_eq_nil_iff.mp htr
    by_cases htbl : tbl = []
    · simp [Bias.computeBiasCfs24h, htbl]
    · simp [Bias.computeBiasCfs24h, htbl, hpairs]
  · intro tbl hspec
    have htr := Bias.trimmed_eq_spec tbl
    have htbl : tbl ≠ [] := by
      intro h
      rw [h] at hspec
      exact hspec (by simp [Bias.specHourlyDiffs])
    have hpairs : Bias.alignedPairs tbl ≠ [] := by
      intro h
      rw [h] at htr
      exact hspec (by rw [← htr]; simp)
    simp only [Bias.computeBiasCfs24h, if_neg htbl, if_neg hpairs]
    rw [htr]

/-- Witness for C4 on a concrete three-row lookback whose middle elevation is
missing: both hour-pairs survive alignment, the missing elevation entering
the actual-net differences as the 0.0 ft default (780566 AF). -/
def c4Table : List LRow :=
  [{ r30 := 100, r4 := 0, r20 := 0, r5l := 0, r26 := 0, mfraMw := 0, oxphMw := 0,
     mode := .num 0, elev := some 1169 },
   { r30 := 100, r4 := 0, r20 := 0, r5l := 0, r26 := 0, mfraMw := 0, oxphMw := 0,
     mode := .num 0, elev := none },
   { r30 := 100, r4 := 0, r20 := 0, r5l := 0, r26 := 0, mfraMw := 0, oxphMw := 0,
     mode := .num 1, elev := some 1168.9 }]

theorem compute_bias_structure_witness :
    Bias.specHourlyDiffs c4Table ≠ [] ∧
    Bias.computeBiasCfs24h c4Table =
      ((Bias.specHourlyDiffs c4Table).drop ((Bias.specHourlyDiffs c4Table).length - 24)).sum /
        (((Bias.specHourlyDiffs c4Table).drop ((Bias.specHourlyDiffs c4Table).length - 24)).length : ℚ) :=
  ⟨by decide, compute_bias_structure.2.2 c4Table (by decide)⟩

/-- C10: for every lookback table the returned bias lies in [-2000, 2000]:
the 0 fallbacks are inside the interval and otherwise the result is an
average of values each clipped into it. -/
theorem compute_bias_bounded (tbl : List LRow) :
    -2000 ≤ Bias.computeBiasCfs24h tbl ∧ Bias.computeBiasCfs24h tbl ≤ 2000 := by
  by_cases htbl : tbl = []
  · simp [Bias.computeBiasCfs24h, htbl]
  by_cases hpairs : Bias.alignedPairs tbl = []
  · simp [Bias.computeBiasCfs24h, htbl, hpairs]
  simp only [Bias.computeBiasCfs24h, if_neg htbl, if_neg hpairs]
  set trimmed := (Bias.alignedPairs tbl).map (fun p => Bias.clip2000 (p.2 - p.1)) with htrim
  set tl := trimmed.drop (trimmed.length - 24) with htl
  have hmem : ∀ x ∈ tl, -2000 ≤ x ∧ x ≤ 2000 := by
    intro x hx
    have hx2 : x ∈ trimmed := List.drop_subset _ _ hx
    rw [htrim] at hx2
    obtain ⟨p, _, hp⟩ := List.mem_map.mp hx2
    constructor
    · rw [← hp]
      exact le_min (by norm_num) (le_max_left _ _)
    · rw [← hp]
      exact min_le_left _ _
  have hne : tl ≠ [] := by
    rw [htl]
    intro h
    have hlen := congrArg List.length h
    rw [List.length_drop, List.length_nil] at hlen
    have hpos : 0 < trimmed.length := by
      rw [htrim, List.length_map]
      exact List.length_pos.mpr hpairs
    omega
  have hlenpos : 0 < (tl.length : ℚ) := by
    have := List.length_pos.mpr hne
    exact_mod_cast this
  constructor
  · rw [le_div_iff₀ hlenpos]
    have hs := List.card_nsmul_le_sum tl (-2000 : ℚ) (fun x hx => (hmem x hx).1)
    rw [nsmul_eq_mul] at hs
    linarith
  · rw [div_le_iff₀ hlenpos]
    have hs := List.sum_le_card_nsmul tl (2000 : ℚ) (fun x hx => (hmem x hx).2)
    rw [nsmul_eq_mul] at hs
    linarith

/-! ### Claim C2: the three net-inflow implementations -/

lemma recalc_physics_normalize (m : ModeRaw) :
    Recalc.normalizeMode m = Physics.normalizeMode m := by
  cases m <;> rfl

lemma recalc_physics_regulated (mf r4 r5l : ℚ) :
    Recalc.regulatedComponentGen mf r4 r5l = Physics.regulatedComponentGen mf r4 r5l := rfl

lemma recalc_physics_oxph (mw : ℚ) :
    Recalc.oxphCfsFromMwLinear mw = Physics.oxphCfsFromMwLinear mw := rfl

lemma recalc_physics_mf12Mw (mfra r4 r5l : ℚ) (m : ModeRaw) :
    Recalc.mf12MwFromMfra mfra r4 r5l m = Physics.mf12MwFromMfra mfra r4 r5l m := by
  simp only [Recalc.mf12MwFromMfra, Physics.mf12MwFromMfra, recalc_physics_normalize]

lemma physics_mf12Mw_nonneg (mfra r4 r5l : ℚ) (m : ModeRaw) :
    0 ≤ Physics.mf12MwFromMfra mfra r4 r5l m := by
  simp only [Physics.mf12MwFromMfra]
  exact le_max_right _ _

lemma recalc_physics_mf12Pipeline (mfra r4 r5l : ℚ) (m : ModeRaw) :
    Recalc.mf12CfsFromMwQuadratic (Recalc.mf12MwFromMfra mfra r4 r5l m)
      = Physics.mf12CfsFromMwQuadratic (Physics.mf12MwFromMfra mfra r4 r5l m) := by
  rw [recalc_physics_mf12Mw]
  simp only [Recalc.mf12CfsFromMwQuadratic, Physics.mf12CfsFromMwQuadratic]
  rw [max_eq_left (physics_mf12Mw_nonneg mfra r4 r5l m)]

lemma recalc_known_eq_expected (r30 r4 r20 r5l r26 bias mfra g : ℚ) (m : ModeRaw) :
    Recalc.knownCfs r30 r4 r20 r5l r26 bias mfra m - OXPH_MW_TO_CFS_FACTOR * g
      = Physics.expectedNet r30 r4 r20 r5l r26 mfra g m + bias := by
  simp only [Recalc.knownCfs, Physics.expectedNet, Physics.oxphCfsFromMwLinear,
    recalc_physics_normalize, recalc_physics_regulated, recalc_physics_mf12Pipeline]
  by_cases h : Physics.normalizeMode m = Mode.SPILL
  · simp only [if_pos h]; ring
  · simp only [if_neg h]; ring

/-- C2: the Recalculator re-implementations of the mode-selected physics
(normalization, MF12 power with side-water reduction, the MF12 quadratic as
applied within the pipeline, the regulated GEN component, the OXPH linear
curve and the resulting per-hour net-inflow term) agree exactly with the
physics module used by the Bias Estimator for every input; but evaluated at
the failing input (numeric mode 1 as produced by the input builder, MFRA 200
MW, R4 500 cfs, all other inputs zero), the Optimizer net-inflow term
diverges from the physics module: its GEN/SPILL branch selection compares the
stringified mode against the literal SPILL, which a numeric mode never
equals. -/
theorem engines_net_inflow_agreement_and_divergence :
    (∀ m : ModeRaw, Recalc.normalizeMode m = Physics.normalizeMode m) ∧
    (∀ mfra r4 r5l : ℚ, ∀ m : ModeRaw,
      Recalc.mf12MwFromMfra mfra r4 r5l m = Physics.mf12MwFromMfra mfra r4 r5l m) ∧
    (∀ mfra r4 r5l : ℚ, ∀ m : ModeRaw,
      Recalc.mf12CfsFromMwQuadratic (Recalc.mf12MwFromMfra mfra r4 r5l m)
        = Physics.mf12CfsFromMwQuadratic (Physics.mf12MwFromMfra mfra r4 r5l m)) ∧
    (∀ mf r4 r5l : ℚ,
      Recalc.regulatedComponentGen mf r4 r5l = Physics.regulatedComponentGen mf r4 r5l) ∧
    (∀ mw : ℚ, Recalc.oxphCfsFromMwLinear mw = Physics.oxphCfsFromMwLinear mw) ∧
    (∀ r30 r4 r20 r5l r26 bias mfra g : ℚ, ∀ m : ModeRaw,
      Recalc.knownCfs r30 r4 r20 r5l r26 bias mfra m - OXPH_MW_TO_CFS_FACTOR * g
        = Physics.expectedNet r30 r4 r20 r5l r26 mfra g m + bias) ∧
    (Optim.knownCfs 0 500 0 0 0 0 200 (.num 1) - OXPH_MW_TO_CFS_FACTOR * 0
      ≠ Physics.expectedNet 0 500 0 0 0 200 0 (.num 1) + 0) :=
  ⟨recalc_physics_normalize, recalc_physics_mf12Mw, recalc_physics_mf12Pipeline,
   recalc_physics_regulated, recalc_physics_oxph, recalc_known_eq_expected, by
    simp only [Optim.knownCfs, Optim.isSpillStr, Physics.expectedNet, Physics.normalizeMode,
      Physics.mf12MwFromMfra, Physics.mf12CfsFromMwQuadratic, Physics.regulatedComponentGen,
      Physics.oxphCfsFromMwLinear]
    norm_num [OXPH_MW_TO_CFS_FACTOR, OXPH_MW_TO_CFS_OFFSET, MFRA_MW2_TO_CFS_FACTOR,
      MFRA_MW_TO_CFS_FACTOR, MFRA_MW_TO_CFS_OFFSET, min_def, max_def]⟩

/-! ### Claim C5: the float-ceiling clamp and its flag -/

/-- Abbreviation for the known inflow of a row, as used by the loop body. -/
noncomputable def rowKnownR (row : RRow) : ℝ :=
  ((Recalc.knownCfs row.r30 row.r4 row.r20 row.r5l row.r26 row.bias row.mfraMw row.mode : ℚ) : ℝ)

/-- Abbreviation for the unclamped end-of-hour storage of the loop body
(AF_prev + k*(known - f*g) with the clamped generation g). -/
noncomputable def rowAfRaw (ch cm : Bool) (afPrev hPrev : ℝ) (row : RRow) : ℝ :=
  afPrev + (AF_PER_CFS_HOUR : ℝ) *
    (rowKnownR row - (OXPH_MW_TO_CFS_FACTOR : ℝ) * (clampGen ch cm hPrev (rowKnownR row) row.gUser).1)

lemma hourStep_gUser (ch cm : Bool) (afPrev hPrev : ℝ) (row : RRow) :
    (hourStep ch cm afPrev hPrev row).1.gUser
      = (clampGen ch cm hPrev (rowKnownR row) row.gUser).1 := rfl

lemma hourStep_eval_clamped (ch cm : Bool) (afPrev hPrev : ℝ) (row : RRow) (fl : ℚ)
    (hfl : row.floatFt = some fl)
    (hex : (fl : ℝ) < abayAfToFeetR (rowAfRaw ch cm afPrev hPrev row)) :
    (hourStep ch cm afPrev hPrev row).1.abayFt = some (fl : ℝ) ∧
    (hourStep ch cm afPrev hPrev row).1.abayAf = some (abayFeetToAfR (fl : ℝ)) ∧
    (hourStep ch cm afPrev hPrev row).1.violatesFloat = false ∧
    (hourStep ch cm afPrev hPrev row).2 = (abayFeetToAfR (fl : ℝ), (fl : ℝ)) := by
  unfold rowAfRaw rowKnownR at hex
  simp only [hourStep, hfl]
  simp only [if_pos hex, if_neg (lt_irrefl ((fl : ℝ)))]
  exact ⟨trivial, trivial, trivial, trivial⟩

lemma hourStep_eval_nofloat (ch cm : Bool) (afPrev hPrev : ℝ) (row : RRow)
    (hfl : row.floatFt = none) :
    (hourStep ch cm afPrev hPrev row).1.abayAf = some (rowAfRaw ch cm afPrev hPrev row) ∧
    (hourStep ch cm afPrev hPrev row).2
      = (rowAfRaw ch cm afPrev hPrev row, abayAfToFeetR (rowAfRaw ch cm afPrev hPrev row)) := by
  unfold rowAfRaw rowKnownR
  simp only [hourStep, hfl]
  exact ⟨trivial, trivial⟩

/-- clampGen leaves a request inside the hard envelope and below the head cap
unchanged, with no head violation. -/
lemma clampGen_inrange (hPrev known g0 : ℝ)
    (h1 : ¬ (headLimitedCapMw hPrev known + 1e-9 < g0))
    (h2 : (OXPH_MIN_MW : ℝ) ≤ g0) (h3 : g0 ≤ (OXPH_MAX_MW : ℝ)) :
    clampGen true true hPrev known g0 = (g0, false) := by
  simp only [clampGen]
  split_ifs with hb hc
  · exact absurd hc.2 h1
  · dsimp only
    rw [min_eq_right h3, max_eq_right h2]
  all_goals exact absurd trivial hb

/-- Known inflow of a row whose only nonzero inputs are R30 and the bias, in
GEN mode: base + (quadratic at MF12 = 0 MW, i.e. the 18.54 offset, which also
survives the regulated component) - the OXPH offset. -/
lemma knownCfs_simple (r30 bias : ℚ) :
    Recalc.knownCfs r30 0 0 0 0 bias 0 (.num 0)
      = r30 + bias + MFRA_MW_TO_CFS_OFFSET - OXPH_MW_TO_CFS_OFFSET := by
  simp only [Recalc.knownCfs, Recalc.normalizeMode, Recalc.mf12MwFromMfra,
    Recalc.mf12CfsFromMwQuadratic, Recalc.regulatedComponentGen]
  norm_num [MFRA_MW2_TO_CFS_FACTOR, MFRA_MW_TO_CFS_FACTOR, MFRA_MW_TO_CFS_OFFSET,
    min_def, max_def]

/-- The R30 inflow that drives the elevation from 1169 ft to exactly 1170 ft
in one hour at 2 MW of generation (the failing input of claim C5). -/
def c5R30 : ℚ :=
  (abayFeetToAf 1170 - abayFeetToAf 1169) * CFS_PER_AF_HOUR
    + OXPH_MW_TO_CFS_FACTOR * 2 + OXPH_MW_TO_CFS_OFFSET - MFRA_MW_TO_CFS_OFFSET

def c5Row : RRow :=
  { ts := 1, r26 := 0, r5l := 0, r20 := 0, r4 := 0, r30 := c5R30, mfraMw := 0,
    floatFt := some 1169.5, mode := .num 0, bias := 0, gUser := 2,
    abayAf := none, abayFt := none, oxphOutflowCfs := none, mf12MwCol := none,
    mf12CfsCol := none, regulatedCol := none, headLimitCol := none,
    violatesMin := false, violatesFloat := false, violatesHead := false }

lemma c5_known :
    Recalc.knownCfs c5R30 0 0 0 0 0 0 (.num 0)
      = (abayFeetToAf 1170 - abayFeetToAf 1169) * CFS_PER_AF_HOUR
        + OXPH_MW_TO_CFS_FACTOR * 2 := by
  rw [knownCfs_simple]
  unfold c5R30
  ring

lemma c5_cap : (2 : ℝ) ≤ headLimitedCapMw 1169 ((Recalc.knownCfs c5R30 0 0 0 0 0 0 (.num 0) : ℚ) : ℝ) := by
  rw [c5_known]
  unfold headLimitedCapMw
  rw [le_div_iff₀ (by
    push_cast [OXPH_HEAD_LOSS_SLOPE, AF_PER_CFS_HOUR, OXPH_MW_TO_CFS_FACTOR]
    norm_num)]
  push_cast [OXPH_HEAD_LOSS_SLOPE, AF_PER_CFS_HOUR, OXPH_MW_TO_CFS_FACTOR,
    OXPH_HEAD_LOSS_INTERCEPT, OXPH_MW_TO_CFS_OFFSET, CFS_PER_AF_HOUR,
    abayFeetToAf, A_COEF, B_COEF, C_COEF]
  norm_num

lemma c5_clamp :
    clampGen true true 1169 (rowKnownR c5Row) c5Row.gUser = (2, false) := by
  have hknow : rowKnownR c5Row = ((Recalc.knownCfs c5R30 0 0 0 0 0 0 (.num 0) : ℚ) : ℝ) := rfl
  have hg : c5Row.gUser = (2 : ℝ) := rfl
  rw [hknow, hg]
  exact clampGen_inrange _ _ _
    (by have := c5_cap; intro hlt; linarith)
    (by norm_num [OXPH_MIN_MW]) (by norm_num [OXPH_MAX_MW])

lemma c5_afRaw :
    rowAfRaw true true ((abayFeetToAf 1169 : ℚ) : ℝ) 1169 c5Row
      = ((abayFeetToAf 1170 : ℚ) : ℝ) := by
  unfold rowAfRaw
  rw [c5_clamp]
  have hknow : rowKnownR c5Row = ((Recalc.knownCfs c5R30 0 0 0 0 0 0 (.num 0) : ℚ) : ℝ) := rfl
  rw [hknow, c5_known]
  push_cast [abayFeetToAf, A_COEF, B_COEF, C_COEF, CFS_PER_AF_HOUR, AF_PER_CFS_HOUR,
    OXPH_MW_TO_CFS_FACTOR]
  ring_nf

lemma c5_unclamped :
    abayAfToFeetR (rowAfRaw true true ((abayFeetToAf 1169 : ℚ) : ℝ) 1169 c5Row) = 1170 := by
  rw [c5_afRaw, abayFeetToAf_cast]
  rw [show ((1170 : ℚ) : ℝ) = (1170 : ℝ) by norm_num]
  exact abay_roundtrip 1170 (by norm_num)

/-- C5 (evaluation at the failing input): starting from 1169 ft with inflow
that drives the unclamped elevation to 1170 ft against a FLOAT_FT ceiling of
1169.5 ft, the recomputed hour outputs elevation exactly 1169.5 ft and
storage recomputed from that clamped elevation, as the claim states, but
violates_float is false: the source compares the already-clamped elevation
against the ceiling, so the flag can never be set. -/
theorem recalc_float_clamp_flag_eval :
    abayAfToFeetR (rowAfRaw true true ((abayFeetToAf 1169 : ℚ) : ℝ) 1169 c5Row) = 1170 ∧
    ((1169.5 : ℚ) : ℝ)
      < abayAfToFeetR (rowAfRaw true true ((abayFeetToAf 1169 : ℚ) : ℝ) 1169 c5Row) ∧
    (hourStep true true ((abayFeetToAf 1169 : ℚ) : ℝ) 1169 c5Row).1.abayFt
      = some ((1169.5 : ℚ) : ℝ) ∧
    (hourStep true true ((abayFeetToAf 1169 : ℚ) : ℝ) 1169 c5Row).1.abayAf
      = some (abayFeetToAfR ((1169.5 : ℚ) : ℝ)) ∧
    (hourStep true true ((abayFeetToAf 1169 : ℚ) : ℝ) 1169 c5Row).1.violatesFloat = false := by
  have hex : ((1169.5 : ℚ) : ℝ)
      < abayAfToFeetR (rowAfRaw true true ((abayFeetToAf 1169 : ℚ) : ℝ) 1169 c5Row) := by
    rw [c5_unclamped]; norm_num
  obtain ⟨h1, h2, h3, _⟩ :=
    hourStep_eval_clamped true true ((abayFeetToAf 1169 : ℚ) : ℝ) 1169 c5Row 1169.5 rfl hex
  exact ⟨c5_unclamped, hex, h1, h2, h3⟩

/-! ### Claim C7: the ramp invariant -/

/-- C7 (amended, optimizer half): every assignment satisfying the constraint
system built by build_and_solve obeys the ramp limit between consecutive
hours and from the supplied initial generation into hour 0 (it is a hard
constraint of the model).  The recalculator enforces no such limit; see the
counterexample. -/
theorem optimizer_feasible_ramp_bound (rows : List ORow) (cfg : OptCfg)
    (initElevFt initGenMw : ℚ) (sol : Optim.OptSol)
    (hf : Optim.OptimFeasible rows cfg initElevFt initGenMw sol) :
    (0 < rows.length → |sol.g 0 - initGenMw| ≤ cfg.rampMwPerHour) ∧
    (∀ t, 1 ≤ t → t < rows.length → |sol.g t - sol.g (t - 1)| ≤ cfg.rampMwPerHour) := by
  simp only [Optim.OptimFeasible] at hf
  obtain ⟨-, -, -, -, -, -, -, -, -, -, -, -, -, -, -, -, -, -, -, -, -, -, -,
    hramp0, hrampt, -, -⟩ := hf
  constructor
  · intro hT
    obtain ⟨ha, hb⟩ := hramp0 hT
    exact abs_le.mpr ⟨by linarith, by linarith⟩
  · intro t h1 h2
    obtain ⟨ha, hb⟩ := hrampt t h1 h2
    exact abs_le.mpr ⟨by linarith, by linarith⟩

/-- The R30 inflow that drives the optimizer witness elevation from 1171 ft
down to the 1168 ft breakpoint in one hour at 2 MW. -/
def c7R30 : ℚ :=
  (abayFeetToAf 1168 - abayFeetToAf 1171) * CFS_PER_AF_HOUR
    + OXPH_MW_TO_CFS_FACTOR * 2 + OXPH_MW_TO_CFS_OFFSET - MFRA_MW_TO_CFS_OFFSET

def c7Row : ORow :=
  { r4 := 0, r30 := c7R30, r20 := 0, r5l := 0, r26 := 0, mfraMw := 0, bias := 0,
    floatFt := 1174.5, mode := .num 0, window := false }

def c7Cfg : OptCfg :=
  { minElevFt := 1168, floatBufferFt := 0.5, oxphMinMw := 0.8, oxphMaxMw := 5.8,
    rampMwPerHour := 2.52, summerSetpointFloorMw := 6 }

def c7Sol : Optim.OptSol :=
  { g := fun _ => 2, s := fun _ => 2, H := fun _ => 1168,
    A := fun _ => abayFeetToAf 1168,
    lam := fun _ i => if i = 0 then 1 else 0,
    seg := fun _ k => if k = 0 then 1 else 0,
    slackHi := fun _ => 0, slackLo := fun _ => 0, dpos := fun _ => 0,
    dneg := fun _ => 0, shortfall := fun _ => 0, floorSlack := fun _ => 0 }

lemma optKnownCfs_simple (r30 bias : ℚ) :
    Optim.knownCfs r30 0 0 0 0 bias 0 (.num 0)
      = r30 + bias + MFRA_MW_TO_CFS_OFFSET - OXPH_MW_TO_CFS_OFFSET := by
  simp only [Optim.knownCfs, Optim.isSpillStr, Physics.normalizeMode,
    Physics.mf12MwFromMfra, Physics.mf12CfsFromMwQuadratic, Physics.regulatedComponentGen]
  norm_num [MFRA_MW2_TO_CFS_FACTOR, MFRA_MW_TO_CFS_FACTOR, MFRA_MW_TO_CFS_OFFSET,
    min_def, max_def]

lemma c7_hmin : min c7Cfg.minElevFt (1171 : ℚ) = 1168 := by norm_num [c7Cfg]

lemma c7_hmax :
    (([c7Row].map (fun r => r.floatFt - c7Cfg.floatBufferFt)).foldl max (1171 : ℚ)) = 1174 := by
  norm_num [c7Row, c7Cfg, List.map, List.foldl, max_def]

lemma c7_feasible : Optim.OptimFeasible [c7Row] c7Cfg 1171 2 c7Sol := by
  simp only [Optim.OptimFeasible, c7_hmin, c7_hmax, List.length_singleton]
  have hlamsum : ∀ f : ℕ → ℚ,
      (Finset.range 14).sum (fun i => (if i = 0 then (1 : ℚ) else 0) * f i) = f 0 := by
    intro f
    rw [Finset.sum_eq_single 0]
    · norm_num
    · intro b _ hb; rw [if_neg hb, zero_mul]
    · intro h; exact absurd (Finset.mem_range.mpr (by norm_num)) h
  refine ⟨?_, ?_, ?_, ?_, ?_, ?_, ?_, ?_, ?_, ?_, ?_, ?_, ?_, ?_, ?_, ?_, ?_,
    ?_, ?_, ?_, ?_, ?_, ?_, ?_, ?_, ?_, ?_⟩
  · intro t _; norm_num [c7Sol, c7Cfg]
  · intro t _; norm_num [c7Sol]
  · intro t _; norm_num [c7Sol]
  · intro t _
    norm_num [c7Sol, abayFeetToAf, A_COEF, B_COEF, C_COEF]
  · intro t _ i _
    simp only [c7Sol]
    split <;> norm_num
  · intro t _ k _
    simp only [c7Sol]
    split
    · right; rfl
    · left; rfl
  · intro t _; norm_num [c7Sol]
  · intro t _; norm_num [c7Sol]
  · intro t _; norm_num [c7Sol, c7Cfg]
  · intro t _; norm_num [c7Sol, c7Cfg]
  · intro t _; norm_num [c7Sol, c7Cfg]
  · intro t _; norm_num [c7Sol]
  · intro t _
    simp only [c7Sol]
    rw [Finset.sum_eq_single 0]
    · norm_num
    · intro b _ hb; rw [if_neg hb]
    · intro h; exact absurd (Finset.mem_range.mpr (by norm_num)) h
  · intro t _
    simp only [c7Sol]
    rw [Finset.sum_eq_single 0]
    · norm_num
    · intro b _ hb; rw [if_neg hb]
    · intro h; exact absurd (Finset.mem_range.mpr (by norm_num)) h
  · intro t _; norm_num [c7Sol]
  · intro t _; norm_num [c7Sol]
  · intro t _ i hi1 hi2
    simp only [c7Sol]
    rw [if_neg (by omega : ¬ i = 0)]
    have h1 : (0 : ℚ) ≤ (if i - 1 = 0 then (1 : ℚ) else 0) := by split <;> norm_num
    have h2 : (0 : ℚ) ≤ (if i = 0 then (1 : ℚ) else 0) := by split <;> norm_num
    linarith
  · intro t ht
    obtain rfl : t = 0 := Nat.lt_one_iff.mp ht
    simp only [c7Sol]
    rw [hlamsum]
    norm_num [Optim.breakH]
  · intro t ht
    obtain rfl : t = 0 := Nat.lt_one_iff.mp ht
    simp only [c7Sol]
    rw [hlamsum]
    norm_num [Optim.breakA, Optim.breakH]
  · intro t ht
    obtain rfl : t = 0 := Nat.lt_one_iff.mp ht
    norm_num [c7Sol, c7Cfg, c7Row, List.getD]
  · intro t _; norm_num [c7Sol, c7Cfg]
  · intro t _
    norm_num [c7Sol, OXPH_HEAD_LOSS_SLOPE, OXPH_HEAD_LOSS_INTERCEPT]
  · intro t ht
    obtain rfl : t = 0 := Nat.lt_one_iff.mp ht
    simp only [c7Sol, List.getD, if_pos rfl]
    show abayFeetToAf 1168
      = abayFeetToAf 1171 + AF_PER_CFS_HOUR * (Optim.knownOf c7Row - OXPH_MW_TO_CFS_FACTOR * 2)
    have hk : Optim.knownOf c7Row
        = (abayFeetToAf 1168 - abayFeetToAf 1171) * CFS_PER_AF_HOUR
          + OXPH_MW_TO_CFS_FACTOR * 2 := by
      show Optim.knownCfs c7R30 0 0 0 0 0 0 (.num 0)
        = (abayFeetToAf 1168 - abayFeetToAf 1171) * CFS_PER_AF_HOUR
          + OXPH_MW_TO_CFS_FACTOR * 2
      rw [optKnownCfs_simple]
      unfold c7R30
      ring
    rw [hk]
    have hu : AF_PER_CFS_HOUR * CFS_PER_AF_HOUR = 1 := by
      norm_num [AF_PER_CFS_HOUR, CFS_PER_AF_HOUR]
    have : AF_PER_CFS_HOUR *
        ((abayFeetToAf 1168 - abayFeetToAf 1171) * CFS_PER_AF_HOUR
          + OXPH_MW_TO_CFS_FACTOR * 2 - OXPH_MW_TO_CFS_FACTOR * 2)
        = (abayFeetToAf 1168 - abayFeetToAf 1171) * (AF_PER_CFS_HOUR * CFS_PER_AF_HOUR) := by
      ring
    rw [this, hu]
    ring
  · intro _; norm_num [c7Sol, c7Cfg]
  · intro t h1 h2; omega
  · intro t ht
    obtain rfl : t = 0 := Nat.lt_one_iff.mp ht
    have hrow : ([c7Row].getD 0 Optim.dummyORow).window = false := rfl
    rw [if_neg (by rw [hrow]; simp)]
    exact ⟨rfl, by norm_num [c7Sol]⟩
  · intro t ht
    obtain rfl : t = 0 := Nat.lt_one_iff.mp ht
    norm_num [c7Sol]

/-- Witness for C7 on a one-hour horizon with a concrete feasible assignment. -/
theorem optimizer_feasible_ramp_bound_witness :
    Optim.OptimFeasible [c7Row] c7Cfg 1171 2 c7Sol ∧
    ((0 < [c7Row].length → |c7Sol.g 0 - 2| ≤ c7Cfg.rampMwPerHour) ∧
     (∀ t, 1 ≤ t → t < [c7Row].length →
        |c7Sol.g t - c7Sol.g (t - 1)| ≤ c7Cfg.rampMwPerHour)) :=
  ⟨c7_feasible, optimizer_feasible_ramp_bound [c7Row] c7Cfg 1171 2 c7Sol c7_feasible⟩

/-- First row of the ramp counterexample table: requested generation 0.8 MW
and inflow that exactly balances the outflow (elevation stays at 1169 ft). -/
noncomputable def c7Re0 : RRow :=
  { ts := 1, r26 := 0, r5l := 0, r20 := 0, r4 := 0,
    r30 := OXPH_MW_TO_CFS_FACTOR * 0.8 + OXPH_MW_TO_CFS_OFFSET - MFRA_MW_TO_CFS_OFFSET,
    mfraMw := 0, floatFt := none, mode := .num 0, bias := 0, gUser := 0.8,
    abayAf := none, abayFt := none, oxphOutflowCfs := none, mf12MwCol := none,
    mf12CfsCol := none, regulatedCol := none, headLimitCol := none,
    violatesMin := false, violatesFloat := false, violatesHead := false }

/-- Second row: requested generation 5.8 MW (an operator override value) with
plenty of inflow, so neither clamp binds. -/
noncomputable def c7Re1 : RRow :=
  { ts := 2, r26 := 0, r5l := 0, r20 := 0, r4 := 0,
    r30 := 2000 + OXPH_MW_TO_CFS_OFFSET - MFRA_MW_TO_CFS_OFFSET,
    mfraMw := 0, floatFt := none, mode := .num 0, bias := 0, gUser := 5.8,
    abayAf := none, abayFt := none, oxphOutflowCfs := none, mf12MwCol := none,
    mf12CfsCol := none, regulatedCol := none, headLimitCol := none,
    violatesMin := false, violatesFloat := false, violatesHead := false }

noncomputable def c7ReTable : List RRow := [c7Re0, c7Re1]

lemma c7Re0_known :
    rowKnownR c7Re0 = ((OXPH_MW_TO_CFS_FACTOR * (0.8 : ℚ) : ℚ) : ℝ) := by
  unfold rowKnownR
  have h : Recalc.knownCfs c7Re0.r30 c7Re0.r4 c7Re0.r20 c7Re0.r5l c7Re0.r26 c7Re0.bias
      c7Re0.mfraMw c7Re0.mode = OXPH_MW_TO_CFS_FACTOR * (0.8 : ℚ) := by
    show Recalc.knownCfs
      (OXPH_MW_TO_CFS_FACTOR * 0.8 + OXPH_MW_TO_CFS_OFFSET - MFRA_MW_TO_CFS_OFFSET)
      0 0 0 0 0 0 (.num 0) = OXPH_MW_TO_CFS_FACTOR * (0.8 : ℚ)
    rw [knownCfs_simple]
    ring
  rw [h]

lemma c7Re1_known : rowKnownR c7Re1 = ((2000 : ℚ) : ℝ) := by
  unfold rowKnownR
  have h : Recalc.knownCfs c7Re1.r30 c7Re1.r4 c7Re1.r20 c7Re1.r5l c7Re1.r26 c7Re1.bias
      c7Re1.mfraMw c7Re1.mode = (2000 : ℚ) := by
    show Recalc.knownCfs (2000 + OXPH_MW_TO_CFS_OFFSET - MFRA_MW_TO_CFS_OFFSET)
      0 0 0 0 0 0 (.num 0) = (2000 : ℚ)
    rw [knownCfs_simple]
    ring
  rw [h]

lemma c7Re0_clamp :
    clampGen true true ((1169 : ℚ) : ℝ) (rowKnownR c7Re0) c7Re0.gUser
      = ((0.8 : ℝ), false) := by
  rw [c7Re0_known, show c7Re0.gUser = (0.8 : ℝ) from rfl]
  apply clampGen_inrange
  · intro hlt
    have hcap : (0.8 : ℝ)
        ≤ headLimitedCapMw ((1169 : ℚ) : ℝ) ((OXPH_MW_TO_CFS_FACTOR * (0.8 : ℚ) : ℚ) : ℝ) := by
      unfold headLimitedCapMw
      rw [le_div_iff₀ (by
        push_cast [OXPH_HEAD_LOSS_SLOPE, AF_PER_CFS_HOUR, OXPH_MW_TO_CFS_FACTOR]
        norm_num)]
      push_cast [OXPH_HEAD_LOSS_SLOPE, AF_PER_CFS_HOUR, OXPH_MW_TO_CFS_FACTOR,
        OXPH_HEAD_LOSS_INTERCEPT]
      norm_num
    linarith
  · norm_num [OXPH_MIN_MW]
  · norm_num [OXPH_MAX_MW]

lemma c7Re1_clamp :
    clampGen true true ((1169 : ℚ) : ℝ) (rowKnownR c7Re1) c7Re1.gUser
      = ((5.8 : ℝ), false) := by
  rw [c7Re1_known, show c7Re1.gUser = (5.8 : ℝ) from rfl]
  apply clampGen_inrange
  · intro hlt
    have hcap : (5.8 : ℝ) ≤ headLimitedCapMw ((1169 : ℚ) : ℝ) ((2000 : ℚ) : ℝ) := by
      unfold headLimitedCapMw
      rw [le_div_iff₀ (by
        push_cast [OXPH_HEAD_LOSS_SLOPE, AF_PER_CFS_HOUR, OXPH_MW_TO_CFS_FACTOR]
        norm_num)]
      push_cast [OXPH_HEAD_LOSS_SLOPE, AF_PER_CFS_HOUR, OXPH_MW_TO_CFS_FACTOR,
        OXPH_HEAD_LOSS_INTERCEPT]
      norm_num
    linarith
  · norm_num [OXPH_MIN_MW]
  · norm_num [OXPH_MAX_MW]

lemma c7Re0_afRaw :
    rowAfRaw true true ((abayFeetToAf 1169 : ℚ) : ℝ) ((1169 : ℚ) : ℝ) c7Re0
      = ((abayFeetToAf 1169 : ℚ) : ℝ) := by
  unfold rowAfRaw
  rw [c7Re0_clamp, c7Re0_known]
  push_cast
  ring

lemma c7Re0_nextFt :
    abayAfToFeetR (rowAfRaw true true ((abayFeetToAf 1169 : ℚ) : ℝ) ((1169 : ℚ) : ℝ) c7Re0)
      = ((1169 : ℚ) : ℝ) := by
  rw [c7Re0_afRaw, abayFeetToAf_cast]
  rw [show ((1169 : ℚ) : ℝ) = (1169 : ℝ) by norm_num]
  exact abay_roundtrip 1169 (by norm_num)

/-- C7 counterexample: the recalculator applied to this two-row table (no
overrides, both requested generations within head and hard bounds) returns
consecutive generations 0.8 MW and 5.8 MW, an hour-over-hour change of 5.0 MW
against the 2.52 MW/h ramp limit: the recalculator enforces no ramp
constraint at all. -/
theorem recalc_output_violates_ramp :
    ∃ out, recalcAbayPath c7ReTable [] (some 1169) none true true = .ok out ∧
      (out.map RRow.gUser).get? 0 = some (0.8 : ℝ) ∧
      (out.map RRow.gUser).get? 1 = some (5.8 : ℝ) ∧
      ¬ (|(5.8 : ℝ) - 0.8| ≤ (OXPH_RAMP_RATE_MW_PER_MIN : ℝ) * 60 + 1e-6) := by
  have hrun : recalcAbayPath c7ReTable [] (some 1169) none true true
      = .ok (recalcRows c7ReTable 0 ((abayFeetToAf 1169 : ℚ) : ℝ) ((1169 : ℚ) : ℝ) true true) := by
    have hsnap : snapIndex [c7Re0, c7Re1] c7Re0.ts = some 0 := by
      simp [snapIndex, List.findIdx, List.findIdx.go, c7Re0]
    simp only [recalcAbayPath, applyOverrides, List.foldl_nil, c7ReTable,
      List.head?_cons, Option.map_some', Option.getD_some]
    rw [hsnap]
    simp [seedState]
  refine ⟨_, hrun, ?_, ?_, ?_⟩
  · have hstep : (hourStep true true ((abayFeetToAf 1169 : ℚ) : ℝ) ((1169 : ℚ) : ℝ) c7Re0).1.gUser
        = (0.8 : ℝ) := by
      rw [hourStep_gUser, c7Re0_clamp]
    simp only [recalcRows, List.take, List.drop, List.nil_append, c7ReTable, recalcGo,
      List.map_cons, List.get?]
    rw [hstep]
  · have hst := hourStep_eval_nofloat true true ((abayFeetToAf 1169 : ℚ) : ℝ) ((1169 : ℚ) : ℝ)
      c7Re0 rfl
    have hstep1 : ∀ ap : ℝ,
        (hourStep true true ap ((1169 : ℚ) : ℝ) c7Re1).1.gUser = (5.8 : ℝ) := by
      intro ap
      rw [hourStep_gUser, c7Re1_clamp]
    simp only [recalcRows, List.take, List.drop, List.nil_append, c7ReTable, recalcGo,
      List.map_cons, List.get?]
    rw [hst.2, c7Re0_nextFt, hstep1]
  · rw [show |(5.8 : ℝ) - 0.8| = 5 by rw [abs_of_pos] <;> norm_num]
    norm_num [OXPH_RAMP_RATE_MW_PER_MIN]

/-! ### Structural lemmas for the recalculator table operations -/

lemma applyTo_ts (c : OverrideCol) (v : ℚ) (r : RRow) : (c.applyTo v r).ts = r.ts := by
  cases c <;> rfl

lemma applyOverrides_nil (rows : List RRow) : applyOverrides rows [] = rows := rfl

lemma applyOverrides_cons (rows : List RRow) (e : OverrideCol × ℚ × ℚ)
    (rest : List (OverrideCol × ℚ × ℚ)) :
    applyOverrides rows (e :: rest)
      = applyOverrides (rows.map (fun r => if r.ts = e.2.1 then e.1.applyTo e.2.2 r else r))
          rest := rfl

lemma applyOverrides_length (rows : List RRow) (ov : List (OverrideCol × ℚ × ℚ)) :
    (applyOverrides rows ov).length = rows.length := by
  induction ov generalizing rows with
  | nil => rfl
  | cons e rest ih =>
      rw [applyOverrides_cons, ih, List.length_map]

lemma applyOverrides_get_ts (rows : List RRow) (ov : List (OverrideCol × ℚ × ℚ)) (i : ℕ) :
    ((applyOverrides rows ov).get? i).map RRow.ts = (rows.get? i).map RRow.ts := by
  induction ov generalizing rows with
  | nil => rfl
  | cons e rest ih =>
      rw [applyOverrides_cons, ih, List.get?_map]
      cases h : rows.get? i with
      | none => rfl
      | some r =>
          simp only [Option.map_some']
          congr 1
          split
          · exact applyTo_ts _ _ _
          · rfl

lemma applyOverrides_get_of_ne (rows : List RRow) (ov : List (OverrideCol × ℚ × ℚ)) (i : ℕ)
    (h : ∀ r, rows.get? i = some r → ∀ e ∈ ov, r.ts ≠ e.2.1) :
    (applyOverrides rows ov).get? i = rows.get? i := by
  induction ov generalizing rows with
  | nil => rfl
  | cons e rest ih =>
      rw [applyOverrides_cons, ih]
      · rw [List.get?_map]
        cases hr : rows.get? i with
        | none => rfl
        | some r =>
            have hne := h r hr e (List.mem_cons_self _ _)
            simp [if_neg hne]
      · intro r hr e2 he2
        rw [List.get?_map] at hr
        cases hr0 : rows.get? i with
        | none => rw [hr0] at hr; exact absurd hr (by simp)
        | some r0 =>
            rw [hr0] at hr
            simp only [Option.map_some', Option.some.injEq] at hr
            have hts : r.ts = r0.ts := by
              rw [← hr]
              split
              · exact applyTo_ts _ _ _
              · rfl
            rw [hts]
            exact h r0 hr0 e2 (List.mem_cons_of_mem _ he2)

lemma foldl_min_le (l : List ℚ) (a : ℚ) :
    l.foldl min a ≤ a ∧ ∀ x ∈ l, l.foldl min a ≤ x := by
  induction l generalizing a with
  | nil => exact ⟨le_refl a, by simp⟩
  | cons b bs ih =>
      obtain ⟨h1, h2⟩ := ih (min a b)
      refine ⟨le_trans h1 (min_le_left _ _), ?_⟩
      intro x hx
      rcases List.mem_cons.mp hx with hx | hx
      · rw [hx] at *
        exact le_trans h1 (min_le_right _ _)
      · exact h2 x hx

lemma minOverrideTs_le (ov : List (OverrideCol × ℚ × ℚ)) (d : ℚ) (e : OverrideCol × ℚ × ℚ)
    (he : e ∈ ov) : minOverrideTs ov d ≤ e.2.1 := by
  cases ov with
  | nil => exact absurd he (List.not_mem_nil e)
  | cons e0 rest =>
      show (List.map (fun e => e.2.1) rest).foldl min e0.2.1 ≤ e.2.1
      rcases List.mem_cons.mp he with h | h
      · rw [h]
        exact (foldl_min_le _ _).1
      · exact (foldl_min_le _ _).2 e.2.1 (List.mem_map.mpr ⟨e, h, rfl⟩)

lemma findIdx_gt_of_early_false (p : RRow → Bool) (l : List RRow) (i : ℕ)
    (h : ∀ j, j ≤ i → ∀ x, l.get? j = some x → p x = false) (hi : i < l.length) :
    i < l.findIdx p := by
  induction l generalizing i with
  | nil => simp at hi
  | cons a as ih =>
      have ha : p a = false := h 0 (Nat.zero_le _) a rfl
      rw [List.findIdx_cons, ha]
      simp only [cond_false]
      cases i with
      | zero => omega
      | succ n =>
          have hn : n < as.findIdx p := by
            apply ih
            · intro j hj x hx
              exact h (j + 1) (by omega) x hx
            · simpa using hi
          omega

lemma findIdx_eq_length_of_all_false (p : RRow → Bool) (l : List RRow)
    (h : ∀ x ∈ l, p x = false) : l.findIdx p = l.length := by
  induction l with
  | nil => rfl
  | cons a as ih =>
      rw [List.findIdx_cons, h a (List.mem_cons_self _ _)]
      simp only [cond_false, List.length_cons]
      rw [ih (fun x hx => h x (List.mem_cons_of_mem _ hx))]

lemma findIdx_lt_length_of_mem (p : RRow → Bool) (l : List RRow)
    (h : ∃ x ∈ l, p x = true) : l.findIdx p < l.length := by
  induction l with
  | nil => simp at h
  | cons a as ih =>
      rw [List.findIdx_cons]
      cases hpa : p a with
      | true => simp
      | false =>
          simp only [cond_false, List.length_cons]
          obtain ⟨x, hx, hpx⟩ := h
          rcases List.mem_cons.mp hx with hx | hx
          · subst hx
            rw [hpa] at hpx
            simp at hpx
          · have := ih ⟨x, hx, hpx⟩
            omega

lemma seedState_some (rows : List RRow) (start : ℕ) (i0 : ℚ) (h : start < rows.length) :
    ∃ st, seedState rows start (some i0) = some st := by
  by_cases h0 : start = 0
  · exact ⟨(((abayFeetToAf i0 : ℚ) : ℝ), (i0 : ℝ)), by unfold seedState; rw [if_pos h0]; rfl⟩
  · cases hprev : rows.get? (start - 1) with
    | none =>
        rw [List.get?_eq_none] at hprev
        omega
    | some prev =>
        cases habay : prev.abayAf with
        | none =>
            refine ⟨(((abayFeetToAf i0 : ℚ) : ℝ), (i0 : ℝ)), ?_⟩
            unfold seedState
            rw [if_neg h0, hprev]
            dsimp only
            rw [habay]
            rfl
        | some af =>
            refine ⟨(af, match prev.abayFt with | some ft => ft | none => abayAfToFeetR af), ?_⟩
            unfold seedState
            rw [if_neg h0, hprev]
            dsimp only
            rw [habay]

lemma sorted_ts_mono (rows : List RRow) (hsort : rows.Pairwise (fun a b => a.ts < b.ts))
    (j i : ℕ) (hji : j ≤ i) (rj ri : RRow) (hj : rows.get? j = some rj)
    (hi : rows.get? i = some ri) : rj.ts ≤ ri.ts := by
  rcases Nat.lt_or_ge j i with hlt | hge
  · obtain ⟨hjlen, hjeq⟩ := List.get?_eq_some.mp hj
    obtain ⟨hilen, hieq⟩ := List.get?_eq_some.mp hi
    have hp := List.pairwise_iff_get.mp hsort ⟨j, hjlen⟩ ⟨i, hilen⟩ hlt
    rw [hjeq, hieq] at hp
    exact le_of_lt hp
  · have hji2 : j = i := by omega
    subst hji2
    rw [hj] at hi
    injection hi with hi
    rw [hi]

lemma snapIndex_some (rows : List RRow) (τ : ℚ) (hex : ∃ r ∈ rows, τ ≤ r.ts) :
    snapIndex rows τ = some (rows.findIdx (fun r => decide (τ ≤ r.ts))) := by
  unfold snapIndex
  rw [if_pos]
  apply findIdx_lt_length_of_mem
  obtain ⟨r, hr, hle⟩ := hex
  exact ⟨r, hr, by simp [hle]⟩

lemma recalcRows_get_lt (rows : List RRow) (start : ℕ) (af h0 : ℝ) (ch cm : Bool) (i : ℕ)
    (hi : i < start) (hlen : i < rows.length) :
    (recalcRows rows start af h0 ch cm).get? i = rows.get? i := by
  unfold recalcRows
  rw [List.get?_append (by rw [List.length_take]; omega)]
  exact List.get?_take hi

lemma map_fixpoints (rows : List RRow) (f : RRow → RRow) (h : ∀ r ∈ rows, f r = r) :
    rows.map f = rows := by
  induction rows with
  | nil => rfl
  | cons a as ih =>
      rw [List.map_cons, h a (List.mem_cons_self _ _),
        ih (fun r hr => h r (List.mem_cons_of_mem _ hr))]

/-- Success and locality of recalc_abay_path with a nonempty override set and
no explicit edit_from: the call succeeds whenever some row lies at or after
the earliest override timestamp, and every row strictly before that timestamp
is returned unchanged. -/
lemma recalc_ok_locality (rows : List RRow) (e0 : OverrideCol × ℚ × ℚ)
    (rest : List (OverrideCol × ℚ × ℚ)) (i0 : ℚ) (ch cm : Bool)
    (hsort : rows.Pairwise (fun a b => a.ts < b.ts))
    (hex : ∃ r ∈ rows, minOverrideTs (e0 :: rest) 0 ≤ r.ts) :
    ∃ out, recalcAbayPath rows (e0 :: rest) (some i0) none ch cm = .ok out ∧
      ∀ i r, rows.get? i = some r → r.ts < minOverrideTs (e0 :: rest) 0 →
        out.get? i = some r := by
  have hex1 : ∃ r ∈ applyOverrides rows (e0 :: rest), minOverrideTs (e0 :: rest) 0 ≤ r.ts := by
    obtain ⟨r, hr, hle⟩ := hex
    obtain ⟨⟨j, hjlen⟩, hjeq⟩ := List.mem_iff_get.mp hr
    have hget : rows.get? j = some r := by
      rw [List.get?_eq_get hjlen, hjeq]
    have hlen1 : j < (applyOverrides rows (e0 :: rest)).length := by
      rw [applyOverrides_length]; exact hjlen
    cases hget1 : (applyOverrides rows (e0 :: rest)).get? j with
    | none => rw [List.get?_eq_none] at hget1; omega
    | some r1 =>
        have hts := applyOverrides_get_ts rows (e0 :: rest) j
        rw [hget1, hget] at hts
        simp only [Option.map_some', Option.some.injEq] at hts
        exact ⟨r1, List.get?_mem hget1, by rw [hts]; exact hle⟩
  have hstartlt : (applyOverrides rows (e0 :: rest)).findIdx
      (fun r => decide (minOverrideTs (e0 :: rest) 0 ≤ r.ts))
      < (applyOverrides rows (e0 :: rest)).length := by
    apply findIdx_lt_length_of_mem
    obtain ⟨r, hr, hle⟩ := hex1
    exact ⟨r, hr, by simp [hle]⟩
  obtain ⟨st, hst⟩ := seedState_some (applyOverrides rows (e0 :: rest)) _ i0 hstartlt
  refine ⟨recalcRows (applyOverrides rows (e0 :: rest))
    ((applyOverrides rows (e0 :: rest)).findIdx
      (fun r => decide (minOverrideTs (e0 :: rest) 0 ≤ r.ts))) st.1 st.2 ch cm, ?_, ?_⟩
  · simp only [recalcAbayPath]
    have hef : minOverrideTs (e0 :: rest)
        (((applyOverrides rows (e0 :: rest)).head?.map RRow.ts).getD 0)
        = minOverrideTs (e0 :: rest) 0 := rfl
    rw [hef, snapIndex_some _ _ hex1]
    dsimp only
    rw [hst]
  · intro i r hir hlt
    have hleni : i < rows.length := (List.get?_eq_some.mp hir).1
    have hlen1i : i < (applyOverrides rows (e0 :: rest)).length := by
      rw [applyOverrides_length]; exact hleni
    have hstart : i < (applyOverrides rows (e0 :: rest)).findIdx
        (fun r => decide (minOverrideTs (e0 :: rest) 0 ≤ r.ts)) := by
      apply findIdx_gt_of_early_false _ _ i _ hlen1i
      intro j hj x hxj
      have hts := applyOverrides_get_ts rows (e0 :: rest) j
      cases hrj : rows.get? j with
      | none => rw [hxj, hrj] at hts; simp at hts
      | some rj =>
          rw [hxj, hrj] at hts
          simp only [Option.map_some', Option.some.injEq] at hts
          have hle : rj.ts ≤ r.ts := sorted_ts_mono rows hsort j i hj rj r hrj hir
          have : ¬ (minOverrideTs (e0 :: rest) 0 ≤ x.ts) := by
            rw [hts]
            intro hcon
            have := lt_of_le_of_lt (le_trans hcon hle) hlt
            exact lt_irrefl _ this
          simp [this]
    rw [recalcRows_get_lt _ _ _ _ _ _ _ hstart hlen1i]
    rw [applyOverrides_get_of_ne rows (e0 :: rest) i]
    · exact hir
    · intro r2 hr2 e he heq
      have hr2r : r2 = r := by
        rw [hir] at hr2
        injection hr2 with h
        exact h.symm
      rw [hr2r] at heq
      rw [heq] at hlt
      exact absurd hlt (not_lt.mpr (minOverrideTs_le (e0 :: rest) 0 e he))

/-! ### Claim C6: recalculator locality -/

/-- C6 (amended): for every call with a non-empty override set, no explicit
edit_from, a sorted hour-ending index, and some row at or after the earliest
override timestamp, the call succeeds and every row strictly before the
earliest override timestamp is returned identical to the input row.  (With an
explicit edit_from earlier than the overrides, prior rows can change; see the
counterexample.) -/
theorem recalc_locality_default_edit_from (rows : List RRow)
    (ov : List (OverrideCol × ℚ × ℚ)) (i0 : ℚ) (ch cm : Bool)
    (hsort : rows.Pairwise (fun a b => a.ts < b.ts))
    (hov : ov ≠ [])
    (hex : ∃ r ∈ rows, minOverrideTs ov 0 ≤ r.ts) :
    ∃ out, recalcAbayPath rows ov (some i0) none ch cm = .ok out ∧
      ∀ i r, rows.get? i = some r → r.ts < minOverrideTs ov 0 →
        out.get? i = some r := by
  cases ov with
  | nil => exact absurd rfl hov
  | cons e0 rest => exact recalc_ok_locality rows e0 rest i0 ch cm hsort hex

noncomputable def c6w0 : RRow :=
  { ts := 1, r26 := 0, r5l := 0, r20 := 0, r4 := 0, r30 := 0,
    mfraMw := 0, floatFt := none, mode := .num 0, bias := 0, gUser := 2,
    abayAf := none, abayFt := none, oxphOutflowCfs := none, mf12MwCol := none,
    mf12CfsCol := none, regulatedCol := none, headLimitCol := none,
    violatesMin := false, violatesFloat := false, violatesHead := false }

noncomputable def c6w1 : RRow := { c6w0 with ts := 2 }

/-- Witness for C6 on a two-row table with one override at the second hour. -/
theorem recalc_locality_default_edit_from_witness :
    ∃ out, recalcAbayPath [c6w0, c6w1] [(OverrideCol.oxphGenMw, 2, 3)]
        (some 1169) none true true = .ok out ∧
      ∀ i r, [c6w0, c6w1].get? i = some r →
        r.ts < minOverrideTs [(OverrideCol.oxphGenMw, 2, 3)] 0 →
        out.get? i = some r :=
  recalc_locality_default_edit_from [c6w0, c6w1] [(OverrideCol.oxphGenMw, 2, 3)] 1169 true true
    (by
      constructor
      · intro b hb
        rw [List.mem_singleton.mp hb]
        show (1 : ℚ) < 2
        norm_num
      · exact List.pairwise_singleton _ _)
    (by simp)
    ⟨c6w1, by simp, by show (2 : ℚ) ≤ 2; norm_num⟩

noncomputable def c6d0 : RRow := { c7Re0 with gUser := 0.8, abayAf := some 0 }

noncomputable def c6d1 : RRow := { c7Re1 with abayAf := some 0 }

/-- C6 counterexample: the same call shape but with an explicit edit_from at
the first hour, earlier than the only override (at the second hour).  The
first row, strictly before the earliest override timestamp, is recomputed and
changes (its stored ABAY_af of 0 AF is replaced by the physically consistent
value), so the claim quantified over every call with a non-empty override set
is false. -/
theorem recalc_explicit_edit_from_changes_prior_row :
    ∃ out, recalcAbayPath [c6d0, c6d1] [(OverrideCol.oxphGenMw, 2, 3)]
        (some 1169) (some 1) true true = .ok out ∧
      [c6d0, c6d1].get? 0 = some c6d0 ∧
      c6d0.ts < minOverrideTs [(OverrideCol.oxphGenMw, 2, 3)] 0 ∧
      out.get? 0 ≠ some c6d0 := by
  have happ : applyOverrides [c6d0, c6d1] [(OverrideCol.oxphGenMw, 2, 3)]
      = [c6d0, { c6d1 with gUser := ((3 : ℚ) : ℝ) }] := by
    rw [applyOverrides_cons, applyOverrides_nil]
    simp only [List.map_cons, List.map_nil]
    rw [if_neg (by show ¬ (1 : ℚ) = 2; norm_num), if_pos (by show (2 : ℚ) = 2; rfl)]
    rfl
  have hsnap : snapIndex [c6d0, { c6d1 with gUser := ((3 : ℚ) : ℝ) }] 1 = some 0 := by
    have hfind : List.findIdx (fun r => decide ((1 : ℚ) ≤ r.ts))
        [c6d0, { c6d1 with gUser := ((3 : ℚ) : ℝ) }] = 0 := by
      rw [List.findIdx_cons]
      rw [show (decide ((1 : ℚ) ≤ c6d0.ts)) = true by
        show decide ((1 : ℚ) ≤ 1) = true
        simp]
      rfl
    unfold snapIndex
    rw [hfind]
    rfl
  have hrun : recalcAbayPath [c6d0, c6d1] [(OverrideCol.oxphGenMw, 2, 3)]
      (some 1169) (some 1) true true
      = .ok (recalcRows [c6d0, { c6d1 with gUser := ((3 : ℚ) : ℝ) }] 0
          ((abayFeetToAf 1169 : ℚ) : ℝ) ((1169 : ℚ) : ℝ) true true) := by
    simp only [recalcAbayPath, happ]
    rw [hsnap]
    dsimp only
    rw [show seedState [c6d0, { c6d1 with gUser := ((3 : ℚ) : ℝ) }] 0 (some 1169)
      = some (((abayFeetToAf 1169 : ℚ) : ℝ), ((1169 : ℚ) : ℝ)) from rfl]
  refine ⟨_, hrun, rfl, by show (1 : ℚ) < 2; norm_num, ?_⟩
  have hstep : (hourStep true true ((abayFeetToAf 1169 : ℚ) : ℝ) ((1169 : ℚ) : ℝ) c6d0).1.abayAf
      = some ((abayFeetToAf 1169 : ℚ) : ℝ) := by
    have h1 := (hourStep_eval_nofloat true true ((abayFeetToAf 1169 : ℚ) : ℝ)
      ((1169 : ℚ) : ℝ) c6d0 rfl).1
    have h2 : rowAfRaw true true ((abayFeetToAf 1169 : ℚ) : ℝ) ((1169 : ℚ) : ℝ) c6d0
        = rowAfRaw true true ((abayFeetToAf 1169 : ℚ) : ℝ) ((1169 : ℚ) : ℝ) c7Re0 := rfl
    rw [h1, h2, c7Re0_afRaw]
  intro hcon
  have : (recalcRows [c6d0, { c6d1 with gUser := ((3 : ℚ) : ℝ) }] 0
      ((abayFeetToAf 1169 : ℚ) : ℝ) ((1169 : ℚ) : ℝ) true true).get? 0
      = some ((hourStep true true ((abayFeetToAf 1169 : ℚ) : ℝ) ((1169 : ℚ) : ℝ) c6d0).1) := rfl
  rw [this] at hcon
  have habay := congrArg (fun o => o.map RRow.abayAf) hcon
  simp only [Option.map_some'] at habay
  rw [hstep] at habay
  have hzero : c6d0.abayAf = some (0 : ℝ) := rfl
  rw [hzero] at habay
  injection habay with habay2
  injection habay2 with habay3
  have : ((abayFeetToAf 1169 : ℚ) : ℝ) ≠ 0 := by
    norm_num [abayFeetToAf, A_COEF, B_COEF, C_COEF]
  exact this habay3

/-! ### Claim C8: overrides at a timestamp missing from the index -/

/-- C8 (amended): when the single override timestamp is absent from a sorted
index, (a) the override value is silently discarded (the table is unchanged
by override application), (b) if every row is strictly before the override
timestamp the call is rejected as a hard error, and (c) otherwise the call
succeeds, recomputation snapping forward: all rows strictly before the
override timestamp are returned unchanged. -/
theorem recalc_missing_override_snap (rows : List RRow) (c : OverrideCol)
    (τ v i0 : ℚ) (ch cm : Bool)
    (hsort : rows.Pairwise (fun a b => a.ts < b.ts))
    (hmiss : ∀ r ∈ rows, r.ts ≠ τ) :
    (applyOverrides rows [(c, τ, v)] = rows) ∧
    ((∀ r ∈ rows, r.ts < τ) →
      recalcAbayPath rows [(c, τ, v)] (some i0) none ch cm
        = .error "edit_from is after the last forecast hour.") ∧
    ((∃ r ∈ rows, τ ≤ r.ts) →
      ∃ out, recalcAbayPath rows [(c, τ, v)] (some i0) none ch cm = .ok out ∧
        ∀ i r, rows.get? i = some r → r.ts < τ → out.get? i = some r) := by
  have happ : applyOverrides rows [(c, τ, v)] = rows := by
    rw [applyOverrides_cons, applyOverrides_nil]
    exact map_fixpoints rows _ (fun r hr => if_neg (hmiss r hr))
  refine ⟨happ, ?_, ?_⟩
  · intro hall
    simp only [recalcAbayPath]
    rw [happ]
    have hef : minOverrideTs [(c, τ, v)] ((rows.head?.map RRow.ts).getD 0) = τ := rfl
    rw [hef]
    have hsnap : snapIndex rows τ = none := by
      unfold snapIndex
      rw [findIdx_eq_length_of_all_false _ _
        (fun x hx => by simp [not_le.mpr (hall x hx)])]
      simp
    rw [hsnap]
  · intro hex
    exact recalc_ok_locality rows (c, τ, v) [] i0 ch cm hsort hex

noncomputable def c8u0 : RRow := { c6w0 with ts := 1 }

/-- Witness for C8 on a one-row table whose only timestamp is strictly before
the override timestamp. -/
theorem recalc_missing_override_snap_witness :
    (applyOverrides [c8u0] [(OverrideCol.r30Flow, 2, 9)] = [c8u0]) ∧
    ((∀ r ∈ [c8u0], r.ts < 2) →
      recalcAbayPath [c8u0] [(OverrideCol.r30Flow, 2, 9)] (some 1169) none true true
        = .error "edit_from is after the last forecast hour.") ∧
    ((∃ r ∈ [c8u0], (2 : ℚ) ≤ r.ts) →
      ∃ out, recalcAbayPath [c8u0] [(OverrideCol.r30Flow, 2, 9)]
          (some 1169) none true true = .ok out ∧
        ∀ i r, [c8u0].get? i = some r → r.ts < 2 → out.get? i = some r) :=
  recalc_missing_override_snap [c8u0] OverrideCol.r30Flow 2 9 1169 true true
    (List.pairwise_singleton _ _)
    (by
      intro r hr
      rw [List.mem_singleton.mp hr]
      show (1 : ℚ) ≠ 2
      norm_num)

noncomputable def c8v0 : RRow := { c6w0 with r30 := 100 }

noncomputable def c8v1 : RRow := { c6w0 with ts := 2, r30 := 100 }

/-- C8 counterexample: an override of R30_Flow to 999 cfs at timestamp 1.5,
between the two table hours.  The claim says the value takes effect at the
snapped hour (timestamp 2); in fact the call succeeds but the override value
is dropped: the R30 column of the snapped row is still 100. -/
theorem recalc_missing_override_value_dropped :
    ∃ out, recalcAbayPath [c8v0, c8v1] [(OverrideCol.r30Flow, 3/2, 999)]
        (some 1169) none true true = .ok out ∧
      (∀ r2, out.get? 1 = some r2 → r2.r30 = 100) ∧
      (100 : ℚ) ≠ 999 := by
  have happ : applyOverrides [c8v0, c8v1] [(OverrideCol.r30Flow, 3/2, 999)]
      = [c8v0, c8v1] := by
    rw [applyOverrides_cons, applyOverrides_nil]
    apply map_fixpoints
    intro r hr
    rcases List.mem_cons.mp hr with h | h
    · rw [h]; exact if_neg (by show ¬ (1 : ℚ) = 3/2; norm_num)
    · rw [List.mem_singleton.mp h]
      exact if_neg (by show ¬ (2 : ℚ) = 3/2; norm_num)
  have hfind : List.findIdx (fun r => decide ((3/2 : ℚ) ≤ r.ts)) [c8v0, c8v1] = 1 := by
    rw [List.findIdx_cons]
    rw [show (decide ((3/2 : ℚ) ≤ c8v0.ts)) = false by
      show decide ((3/2 : ℚ) ≤ 1) = false
      simp
      norm_num]
    rw [List.findIdx_cons]
    rw [show (decide ((3/2 : ℚ) ≤ c8v1.ts)) = true by
      show decide ((3/2 : ℚ) ≤ 2) = true
      simp
      norm_num]
    rfl
  have hsnap : snapIndex [c8v0, c8v1] (3/2) = some 1 := by
    unfold snapIndex
    rw [hfind]
    rfl
  have hseed : seedState [c8v0, c8v1] 1 (some 1169)
      = some (((abayFeetToAf 1169 : ℚ) : ℝ), ((1169 : ℚ) : ℝ)) := by
    unfold seedState
    rw [if_neg (by norm_num)]
    rfl
  have hrun : recalcAbayPath [c8v0, c8v1] [(OverrideCol.r30Flow, 3/2, 999)]
      (some 1169) none true true
      = .ok (recalcRows [c8v0, c8v1] 1 ((abayFeetToAf 1169 : ℚ) : ℝ)
          ((1169 : ℚ) : ℝ) true true) := by
    simp only [recalcAbayPath, happ]
    have hef : minOverrideTs [(OverrideCol.r30Flow, 3/2, 999)]
        (([c8v0, c8v1].head?.map RRow.ts).getD 0) = (3/2 : ℚ) := rfl
    rw [hef, hsnap]
    dsimp only
    rw [hseed]
  refine ⟨_, hrun, ?_, by norm_num⟩
  intro r2 hr2
  have hget : (recalcRows [c8v0, c8v1] 1 ((abayFeetToAf 1169 : ℚ) : ℝ)
      ((1169 : ℚ) : ℝ) true true).get? 1
      = some ((hourStep true true ((abayFeetToAf 1169 : ℚ) : ℝ)
          ((1169 : ℚ) : ℝ) c8v1).1) := rfl
  rw [hget] at hr2
  injection hr2 with h
  rw [← h]
  rfl
